import Mathlib

/-!
Verification of the validation-and-recommendation pipeline of the
portkey-ai backend.

The Python sources under src/backend are shallowly embedded:
pure functions become Lean functions over ℚ (Python floats are modelled as
exact rationals), fallible code returns Except, the mutable budget counter of
the hybrid validator becomes explicit state passing, and the external
collaborators (historical store, judge, scenario classifier, random sampling)
become explicit functional parameters or per-call environment fields.
Presentation-only string formatting (f-string number interpolation) is not
modelled, but every arithmetic operation a formatted message performs is kept,
so that the exception behaviour (ZeroDivisionError) is preserved.
-/

namespace PV

/-- The apostrophe character (U+0027), used inside some refusal phrases. -/
def apos : String := String.singleton (Char.ofNat 39)

/-- Python str.lower() restricted to ASCII, applied characterwise. -/
def pyToLower (s : String) : String := ⟨s.data.map Char.toLower⟩

/-- The pattern list is an initial segment of the text list. -/
def startsWithB : List Char → List Char → Bool
  | [], _ => true
  | _ :: _, [] => false
  | a :: as, b :: bs => a == b && startsWithB as bs

/-- The pattern list occurs contiguously somewhere in the text list. -/
def occursIn (needle : List Char) : List Char → Bool
  | [] => startsWithB needle []
  | b :: bs => startsWithB needle (b :: bs) || occursIn needle bs

/-- Python substring containment: needle appears somewhere in hay
(re.search with a metacharacter-free pattern, or the in operator). -/
def containsSub (hay needle : String) : Bool :=
  occursIn needle.data hay.data

/-- The ASCII whitespace class of Python (space, tab, LF, VT, FF, CR). -/
def isPySpace (c : Char) : Bool :=
  c == Char.ofNat 32 || c == Char.ofNat 9 || c == Char.ofNat 10 ||
  c == Char.ofNat 11 || c == Char.ofNat 12 || c == Char.ofNat 13

/-- Python str.strip(): remove leading and trailing whitespace. -/
def pyStrip (s : String) : String :=
  ⟨((s.data.dropWhile isPySpace).reverse.dropWhile isPySpace).reverse⟩

/-- Python str.isupper() restricted to ASCII: at least one letter and no
lowercase letter. -/
def pyIsUpper (s : String) : Bool :=
  s.data.any (fun c => c.isAlpha) && s.data.all (fun c => !c.isLower)

/-- Association-list lookup standing for Python dict access (first matching
key wins; a dict has unique keys). -/
def pyDictGet {β : Type} (k : String) : List (String × β) → Option β
  | [] => none
  | p :: rest => if k = p.1 then some p.2 else pyDictGet k rest

namespace HeuristicValidator

/-- src/backend/validator/heuristic_validator.py REFUSAL_PATTERNS.
All patterns are literal strings (no regex metacharacters), so re.search is
substring containment. -/
def REFUSAL_PATTERNS : List String :=
  [ "i cannot",
    "i can" ++ apos ++ "t",
    "i" ++ apos ++ "m not able to",
    "i am not able to",
    "i don" ++ apos ++ "t have access",
    "i cannot provide",
    "i cannot assist",
    "i" ++ apos ++ "m sorry, but i cannot",
    "against my programming",
    "violates my guidelines",
    "i" ++ apos ++ "m not allowed to",
    "as an ai",
    "as a language model" ]

/-- src/backend/validator/heuristic_validator.py ERROR_PATTERNS. -/
def ERROR_PATTERNS : List String :=
  [ "error:", "exception:", "failed to", "could not", "unable to",
    "traceback", "stack trace" ]

/-- HeuristicScore (pydantic model), score as exact rational. -/
structure HeuristicScore where
  score : ℚ
  confidence : String
  reasoning : String
  checks_passed : List String
  checks_failed : List String
deriving DecidableEq, Repr

/-- HeuristicValidator._is_refusal: any refusal pattern occurs in the
lowercased output. -/
def _is_refusal (output : String) : Bool :=
  REFUSAL_PATTERNS.any (fun p => containsSub (pyToLower output) p)

/-- HeuristicValidator._contains_errors. -/
def _contains_errors (output : String) : Bool :=
  ERROR_PATTERNS.any (fun p => containsSub (pyToLower output) p)

/-- HeuristicValidator._detect_language: Unicode-range checks, in the
elif order of the source, on the original (non-lowercased) text. -/
def _detect_language (text : String) : String :=
  if text.data.any (fun c => 0x4e00 ≤ c.toNat ∧ c.toNat ≤ 0x9fff) then "zh"
  else if text.data.any (fun c => 0x600 ≤ c.toNat ∧ c.toNat ≤ 0x6ff) then "ar"
  else if text.data.any (fun c => 0x400 ≤ c.toNat ∧ c.toNat ≤ 0x4ff) then "ru"
  else if text.data.any (fun c =>
      (0x3040 ≤ c.toNat ∧ c.toNat ≤ 0x309f) ∨
      (0x30a0 ≤ c.toNat ∧ c.toNat ≤ 0x30ff)) then "ja"
  else "en"

/-- One of the sentence-terminating punctuation characters [.!?]. -/
def sentencePunct (c : Char) : Bool := c == '.' || c == '!' || c == '?'

/-- Scanner for the regex [.!?]+\s (re.findall).  Each match consumes a
maximal punctuation run plus one following whitespace character, and a failed
run offers no other match start inside it (a shorter run is followed by
another punctuation character, never whitespace).  Hence the match count
equals the number of whitespace characters whose immediate predecessor is a
punctuation character, which this left-to-right automaton counts; the Boolean
state records whether the previous character was in [.!?]. -/
def countSentencesAux : Bool → List Char → ℕ
  | _, [] => 0
  | prevPunct, c :: rest =>
    if sentencePunct c then countSentencesAux true rest
    else if prevPunct && isPySpace c then 1 + countSentencesAux false rest
    else countSentencesAux false rest

/-- len(re.findall(r, output)) for the sentence regex, starting outside any
punctuation run. -/
def countSentences (l : List Char) : ℕ := countSentencesAux false l

/-- HeuristicValidator._check_formatting: 50-point baseline plus bonuses,
capped at 100.  Total on all strings; the source indexes output[0] and
strip()[-1], which exist whenever validate reaches this call. -/
def _check_formatting (output : String) : ℚ :=
  let score : ℚ := 50
  let score := if (output.data.headD (Char.ofNat 32)).isUpper then score + 10 else score
  let score :=
    if sentencePunct ((pyStrip output).data.getLastD (Char.ofNat 32)) then score + 10 else score
  let score := if output.data.contains (Char.ofNat 10) then score + 10 else score
  let score := if !(pyIsUpper output) then score + 10 else score
  let sentence_count := countSentences output.data
  let score :=
    if 0 < sentence_count then score + min 10 ((sentence_count : ℚ) * 2) else score
  min 100 score

/-- HeuristicValidator._generate_reasoning. -/
def _generate_reasoning (passed failed : List String) (score : ℚ) : String :=
  if score = 0 then "Output failed critical checks (refusal or empty)"
  else if failed = [] then
    "All heuristic checks passed (" ++ toString passed.length ++ " checks)"
  else if passed = [] then
    "All checks failed (" ++ toString failed.length ++ " failures)"
  else
    "Passed " ++ toString passed.length ++ " checks, failed " ++
      toString failed.length ++ " checks"

/-- HeuristicValidator.validate.  The optional JSON schema argument is
abstracted to the Boolean outcome of _validate_schema: none models an absent
(or empty, hence falsy) expected_schema, some b a truthy schema on which
_validate_schema returned b.  All other checks are embedded directly. -/
def validate (output : String) (schemaValid : Option Bool)
    (min_length : ℕ) (expected_language : String) : HeuristicScore :=
  if output = "" ∨ (pyStrip output).length = 0 then
    ⟨0, "HIGH", "Empty output", [], ["non_empty"]⟩
  else if _is_refusal output then
    ⟨0, "HIGH", "Model refused to answer", [], ["refusal_check"]⟩
  else
    let score : ℚ := 100
    let passed : List String := ["refusal_check"]
    let failed : List String := []
    -- Check 2: sufficient length
    let lenFail := output.length < min_length
    let score := if lenFail then score - 40 else score
    let passed := if lenFail then passed else passed ++ ["length_check"]
    let failed := if lenFail then failed ++ ["length_check"] else failed
    -- Check 3: no error messages
    let errFail := _contains_errors output
    let score := if errFail then score - 30 else score
    let passed := if errFail then passed else passed ++ ["error_check"]
    let failed := if errFail then failed ++ ["error_check"] else failed
    -- Check 4: schema validation (if applicable)
    let score := match schemaValid with
      | some true => score + 10
      | some false => score - 20
      | none => score
    let passed := match schemaValid with
      | some true => passed ++ ["schema_check"]
      | _ => passed
    let failed := match schemaValid with
      | some false => failed ++ ["schema_check"]
      | _ => failed
    -- Check 5: language detection
    let langFail := _detect_language output ≠ expected_language
    let score := if langFail then score - 30 else score
    let passed := if langFail then passed else passed ++ ["language_check"]
    let failed := if langFail then failed ++ ["language_check"] else failed
    -- Check 6: formatting quality, blended at 20 percent
    let formatting_score := _check_formatting output
    let score := score + (formatting_score - 50) * 0.2
    let passed := if 60 < formatting_score then passed ++ ["formatting_check"] else passed
    let failed := if 60 < formatting_score then failed else failed ++ ["formatting_check"]
    -- Confidence bands are decided on the unclamped score
    let confidence :=
      if score < 20 ∨ 85 < score then "HIGH"
      else if 30 ≤ score ∧ score ≤ 75 then "MEDIUM"
      else "LOW"
    let score := max 0 (min 100 score)
    ⟨score, confidence, _generate_reasoning passed failed score, passed, failed⟩

end HeuristicValidator

/-! Model family registry, src/backend/classifier/model_families.py.
Each entry: family name, (member models, transfer_confidence, provider). -/

def MODEL_FAMILIES : List (String × (List String × ℚ × String)) :=
  [ ("openai_gpt4",
      (["gpt-4o", "gpt-4o-mini", "gpt-4-turbo", "gpt-4", "gpt-4-turbo-preview"],
       0.85, "openai")),
    ("openai_gpt35",
      (["gpt-3.5-turbo", "gpt-3.5-turbo-16k", "gpt-3.5-turbo-1106"], 0.90, "openai")),
    ("anthropic_claude3",
      (["claude-3-opus", "claude-3-sonnet", "claude-3-haiku"], 0.80, "anthropic")),
    ("anthropic_claude35",
      (["claude-3-5-sonnet", "claude-3-5-haiku", "claude-3-5-sonnet-20250122"],
       0.85, "anthropic")),
    ("google_gemini",
      (["gemini-pro", "gemini-1.5-pro", "gemini-1.5-flash"], 0.80, "google")),
    ("meta_llama3",
      (["meta.llama-3.2-90b-vision-instruct-maas", "meta.llama-3.1-405b-instruct-maas",
        "meta.llama-3.1-70b-instruct-maas", "llama-3.2-90b", "llama-3.1-405b",
        "llama-3.1-70b"], 0.80, "meta")) ]

/-- get_model_family: first family, in table order, one of whose lowercased
members occurs as a substring of the lowercased model name; else unknown. -/
def get_model_family (model : String) : String :=
  let model_lower := pyToLower model
  match MODEL_FAMILIES.find? (fun f => f.2.1.any (fun m => containsSub model_lower (pyToLower m))) with
  | some f => f.1
  | none => "unknown"

/-- get_family_models. -/
def get_family_models (family : String) : List String :=
  match pyDictGet family MODEL_FAMILIES with
  | some c => c.1
  | none => []

/-- get_transfer_confidence, defaulting to 0.5 for unknown families. -/
def get_transfer_confidence (family : String) : ℚ :=
  match pyDictGet family MODEL_FAMILIES with
  | some c => c.2.1
  | none => 0.5

/-! Scenario policy table, src/backend/classifier/scenario_config.py.
Only the numeric fields read by the embedded code paths are modelled
(weights, judge sampling rate, minimum confidence score); cache-TTL fields,
judge tier and model preference lists are consulted nowhere in the validator
and are omitted. -/

structure ScenarioConfig where
  llm_judge_rate : ℚ
  heuristic_weight : ℚ
  db_weight : ℚ
  llm_judge_weight : ℚ
  min_confidence_score : ℚ
deriving DecidableEq, Repr

/-- get_scenario_config: SCENARIO_CONFIG.get(scenario, general default). -/
def get_scenario_config (scenario : String) : ScenarioConfig :=
  if scenario = "code_generation" then ⟨0.20, 0.40, 0.60, 0.60, 85⟩
  else if scenario = "factual_qa" then ⟨0.15, 0.30, 0.70, 0.60, 90⟩
  else if scenario = "creative_writing" then ⟨0.05, 0.20, 0.30, 0.60, 60⟩
  else if scenario = "translation" then ⟨0.10, 0.25, 0.50, 0.60, 80⟩
  else if scenario = "summarization" then ⟨0.10, 0.30, 0.50, 0.60, 75⟩
  else if scenario = "analysis" then ⟨0.15, 0.30, 0.60, 0.60, 85⟩
  else ⟨0.10, 0.25, 0.50, 0.60, 75⟩

/-- should_use_llm_judge: the random draw r (uniform in [0,1)) is passed in
explicitly; the source compares random.random() against the applicable rate. -/
def should_use_llm_judge (scenario : String) (db_confidence : Option String)
    (rand : ℚ) : Bool :=
  let config := get_scenario_config scenario
  if db_confidence = some "HIGH" then decide (rand < 0.01)
  else decide (rand < config.llm_judge_rate)

/-! Smart cache strategy, src/backend/validator/cache_strategy.py.
The historical store is an external collaborator: find_similar becomes an
abstract function parameter.  A store row may or may not carry the
similarity and count attributes (the source sniffs them with hasattr /
getattr), so both are Option fields; avg_score is Option because the source
guards result.avg_score is not None. -/

/-- A result of historical_db.find_similar as consumed by the cache code. -/
structure DBResult where
  avg_score : Option ℚ
  confidence : String
  similarity : Option ℚ
  count : Option ℕ
deriving DecidableEq, Repr

/-- The find_similar boundary: (prompt_text, model, scenario, limit). -/
def DBFun : Type := String → String → String → ℕ → Option DBResult

/-- CacheResult dataclass.  The reasoning strings carry interpolated numbers
in the source; the numbers are dropped, the fixed text kept. -/
structure CacheResult where
  score : ℚ
  confidence : String
  source : String
  method : String
  reasoning : String
  sample_count : ℕ
  adjustment : ℚ
deriving DecidableEq, Repr

namespace SmartCacheStrategy

/-- _meets_min_confidence via the ordinal map HIGH 3, MEDIUM 2, LOW 1,
anything else 0 (dict get with default 0). -/
def confLevel (c : String) : ℕ :=
  if c = "HIGH" then 3 else if c = "MEDIUM" then 2 else if c = "LOW" then 1 else 0

def _meets_min_confidence (confidence min_confidence : String) : Bool :=
  confLevel min_confidence ≤ confLevel confidence

/-- Level 1: exact match; accept only when a similarity attribute is present
and at least 0.95. -/
def _exact_match (db : DBFun) (prompt model scenario : String) : Option CacheResult :=
  match db prompt model scenario 1 with
  | none => none
  | some result =>
    match result.avg_score with
    | none => none
    | some avg =>
      match result.similarity with
      | none => none
      | some sim =>
        if 0.95 ≤ sim then
          some ⟨avg, "HIGH", "exact_match", "historical_db",
                "Exact match found", result.count.getD 1, 0⟩
        else none

/-- Level 2: similar prompt, same model and scenario; getattr default 0.0
for a missing similarity. -/
def _scenario_similar (db : DBFun) (prompt model scenario : String) : Option CacheResult :=
  match db prompt model scenario 5 with
  | none => none
  | some result =>
    match result.avg_score with
    | none => none
    | some avg =>
      let similarity := result.similarity.getD 0
      if 0.85 ≤ similarity then
        some ⟨avg, "HIGH", "scenario_similar", "historical_db",
              "Similar prompt in same scenario", result.count.getD 1, 0⟩
      else none

/-- The for-loop over family members inside _model_family_match: return on
the first member (distinct from the queried model) whose store row has a
score and at least 3 samples. -/
def familyLoop (db : DBFun) (prompt scenario model : String) (confidence_mult : ℚ) :
    List String → Option CacheResult
  | [] => none
  | family_model :: rest =>
    if family_model = model then familyLoop db prompt scenario model confidence_mult rest
    else
      match db prompt family_model scenario 3 with
      | none => familyLoop db prompt scenario model confidence_mult rest
      | some result =>
        match result.avg_score with
        | none => familyLoop db prompt scenario model confidence_mult rest
        | some avg =>
          let sample_count := result.count.getD 1
          if 3 ≤ sample_count then
            let adjusted_score := avg * confidence_mult
            let adjustment := avg - adjusted_score
            some ⟨adjusted_score, "MEDIUM", "model_family", "family_transfer",
                  "Transferred from family member", sample_count, -adjustment⟩
          else familyLoop db prompt scenario model confidence_mult rest

/-- Level 3: model family transfer. -/
def _model_family_match (db : DBFun) (prompt model scenario : String) : Option CacheResult :=
  let family := get_model_family model
  if family = "unknown" then none
  else
    familyLoop db prompt scenario model (get_transfer_confidence family)
      (get_family_models family)

/-- Level 4: scenario baseline; the source returns None unconditionally
(reserved extension point). -/
def _scenario_baseline (_scenario : String) : Option CacheResult := none

/-- Levels 2-4 of lookup, tried after an unaccepted or missing level 1. -/
def lookupL2 (db : DBFun) (prompt model scenario min_confidence : String) :
    Option CacheResult :=
  match _scenario_similar db prompt model scenario with
  | some result =>
    if _meets_min_confidence result.confidence min_confidence then some result
    else
      match _model_family_match db prompt model scenario with
      | some r3 =>
        if _meets_min_confidence r3.confidence min_confidence then some r3
        else if min_confidence = "LOW" then _scenario_baseline scenario else none
      | none => if min_confidence = "LOW" then _scenario_baseline scenario else none
  | none =>
    match _model_family_match db prompt model scenario with
    | some r3 =>
      if _meets_min_confidence r3.confidence min_confidence then some r3
      else if min_confidence = "LOW" then _scenario_baseline scenario else none
    | none => if min_confidence = "LOW" then _scenario_baseline scenario else none

/-- SmartCacheStrategy.lookup: four levels attempted in order, each result
accepted only when it meets the minimum confidence. -/
def lookup (db : DBFun) (prompt model scenario min_confidence : String) :
    Option CacheResult :=
  match _exact_match db prompt model scenario with
  | some result =>
    if _meets_min_confidence result.confidence min_confidence then some result
    else lookupL2 db prompt model scenario min_confidence
  | none => lookupL2 db prompt model scenario min_confidence

end SmartCacheStrategy

/-! Hybrid validator, src/backend/validator/hybrid_validator.py.
The instance attributes that the validate path reads or writes
(use_llm_judge, llm_judge_budget, llm_judge_cost) form an explicit state;
the stats dictionary and the fire-and-forget _cache_result store write are
side effects with no influence on control flow or results and are not
modelled.  Per call, the environment supplies the external collaborators:
the historical store, the scenario classifier (an arbitrary pure
String-to-String tagger standing for scenario_classifier.classify), the
uniform random draw consumed by should_use_llm_judge, and the outcome of
llm_judge.evaluate_single (error = the call raised and was caught; ok none =
it returned None; ok (some j) = it returned the judge score j).  The asyncio
plumbing in _run_llm_judge only resolves that outcome and is not modelled. -/

/-- JudgeScore fields read by the hybrid validator. -/
structure JudgeScore where
  score : ℚ
  reasoning : String
deriving DecidableEq, Repr

/-- HistoricalPrompt: a list of chat messages, each an association list of
string fields (OpenAI format). -/
structure HistoricalPrompt where
  messages : List (List (String × String))
deriving DecidableEq, Repr

/-- ValidationScore (pydantic model).  The breakdown dict keeps its default
value on every constructor call in the source and is omitted. -/
structure ValidationScore where
  score : ℚ
  method : String
  confidence : String
  reasoning : String
  llm_judge_score : Option ℚ
  heuristic_score : Option ℚ
  db_score : Option ℚ
  methods_used : List String
deriving DecidableEq, Repr

namespace HybridValidator

/-- Mutable validator state: the budget-relevant instance attributes. -/
structure VState where
  use_llm_judge : Bool
  llm_judge_budget : ℚ
  llm_judge_cost : ℚ
deriving DecidableEq, Repr

/-- The state of a freshly constructed HybridValidator. -/
def initState : VState := ⟨true, 10, 0⟩

/-- Per-call environment: external collaborators and random outcomes. -/
structure CallEnv where
  db : DBFun
  classify : String → String
  judgeRand : ℚ
  judgeOutcome : Except Unit (Option JudgeScore)

/-- _format_prompt: join the content fields of all messages with spaces
(msg.get with default empty string). -/
def _format_prompt (prompt : HistoricalPrompt) : String :=
  String.intercalate " " (prompt.messages.map (fun m => (pyDictGet "content" m).getD ""))

/-- _combine_scores: scenario-aware weighted average over the present
signals, in the order judge, heuristic, db; empty gives the neutral 50.0 and
an all-zero weight total falls back to the plain mean. -/
def _combine_scores (llm_judge_score heuristic_score db_score : Option ℚ)
    (scenario_config : Option ScenarioConfig) : ℚ :=
  let cfg := scenario_config.getD (get_scenario_config "general")
  let pairs : List (ℚ × ℚ) :=
    (match llm_judge_score with | some s => [(s, cfg.llm_judge_weight)] | none => []) ++
    (match heuristic_score with | some s => [(s, cfg.heuristic_weight)] | none => []) ++
    (match db_score with | some s => [(s, cfg.db_weight)] | none => [])
  if pairs = [] then 50
  else
    let total_weight := (pairs.map Prod.snd).sum
    if total_weight = 0 then (pairs.map Prod.fst).sum / (pairs.length : ℚ)
    else (pairs.map (fun p => p.1 * p.2)).sum / total_weight

/-- _run_llm_judge: re-check the spend cap, then consume the judge outcome;
the estimated cost 0.01 is added whenever evaluate_single returns without
raising (even when it returns None). -/
def _run_llm_judge (st : VState) (env : CallEnv) : Option JudgeScore × VState :=
  let estimated_cost : ℚ := 0.01
  if st.llm_judge_budget < st.llm_judge_cost + estimated_cost then (none, st)
  else
    match env.judgeOutcome with
    | .error _ => (none, st)
    | .ok r => (r, { st with llm_judge_cost := st.llm_judge_cost + estimated_cost })

/-- Steps 3-6 of validate, shared by the cache-miss and the
non-HIGH-cache-hit paths: heuristics, judge decision, ensemble or fallback. -/
def validateRest (st : VState) (env : CallEnv) (output scenario : String)
    (scenario_config : ScenarioConfig) (cache_result : Option CacheResult)
    (force_llm_judge : Bool) : ValidationScore × VState :=
  let methods_used := match cache_result with | some cr => [cr.source] | none => []
  let heuristic_result := HeuristicValidator.validate output none 10 "en"
  let methods_used := methods_used ++ ["heuristics"]
  let db_score : Option ℚ := cache_result.map (·.score)
  if heuristic_result.confidence = "HIGH" ∧ heuristic_result.score < 30 then
    let score := _combine_scores none (some heuristic_result.score) db_score
      (some scenario_config)
    (⟨score, "heuristics", "HIGH", heuristic_result.reasoning, none,
      some heuristic_result.score, db_score, methods_used⟩, st)
  else
    let should_use_judge := force_llm_judge ||
      should_use_llm_judge scenario (cache_result.map (·.confidence)) env.judgeRand
    let fallback := fun (st : VState) =>
      (⟨_combine_scores none (some heuristic_result.score) db_score none,
        (if cache_result.isSome then "heuristics+db" else "heuristics"),
        (if cache_result.isSome then "MEDIUM" else heuristic_result.confidence),
        heuristic_result.reasoning, none, some heuristic_result.score, db_score,
        methods_used⟩, st)
    if should_use_judge && st.use_llm_judge then
      match _run_llm_judge st env with
      | (some judge_result, st1) =>
        let methods_used := methods_used ++ ["llm_judge"]
        let score := _combine_scores (some judge_result.score)
          (some heuristic_result.score) db_score (some scenario_config)
        (⟨score, "ensemble", "HIGH", judge_result.reasoning, some judge_result.score,
          some heuristic_result.score, db_score, methods_used⟩, st1)
      | (none, st1) => fallback st1
    else fallback st

/-- HybridValidator.validate.  The phase argument is accepted and unused,
as in the source. -/
def validate (st : VState) (env : CallEnv) (prompt : HistoricalPrompt)
    (output model : String) (_phase : String) (force_llm_judge : Bool) :
    ValidationScore × VState :=
  let prompt_text := _format_prompt prompt
  let scenario := env.classify prompt_text
  let scenario_config := get_scenario_config scenario
  let cache_result := SmartCacheStrategy.lookup env.db prompt_text model scenario "MEDIUM"
  match cache_result with
  | some cr =>
    if cr.confidence = "HIGH" then
      (⟨cr.score, cr.source, cr.confidence, cr.reasoning, none, none,
        some cr.score, [cr.source]⟩, st)
    else validateRest st env output scenario scenario_config (some cr) force_llm_judge
  | none => validateRest st env output scenario scenario_config none force_llm_judge

/-- One call in a sequence of validate invocations. -/
structure Call where
  env : CallEnv
  prompt : HistoricalPrompt
  output : String
  model : String
  phase : String
  force_llm_judge : Bool

/-- Run a sequence of validate calls, threading the validator state. -/
def runValidate (st : VState) : List Call → List ValidationScore × VState
  | [] => ([], st)
  | c :: rest =>
    let r := validate st c.env c.prompt c.output c.model c.phase c.force_llm_judge
    let rs := runValidate r.2 rest
    (r.1 :: rs.1, rs.2)

/-- The budget cap has been crossed: even one more estimated judge cost would
exceed the budget (the condition _run_llm_judge re-checks). -/
def capExceeded (st : VState) : Prop :=
  st.llm_judge_budget < st.llm_judge_cost + 0.01

instance (st : VState) : Decidable (capExceeded st) := by
  unfold capExceeded; infer_instance

end HybridValidator

/-! Quality scorer and recommendation engine, src/backend/quality_scorer.py
and src/backend/recommender.py. -/

/-- QualityMetrics (pydantic model).  Counts are integers and rates and
costs are rationals; the pydantic range constraints (consistency_score and
schema_compliance_rate in [0,1], avg_validation_score in [0,100]) appear as
hypotheses where a theorem needs them. -/
structure QualityMetrics where
  model : String
  total_calls : ℤ
  successful_calls : ℤ
  failed_calls : ℤ
  refusal_rate : ℚ
  avg_cost_per_call : ℚ
  total_cost : ℚ
  avg_latency_ms : ℚ
  p50_latency_ms : ℚ
  p95_latency_ms : ℚ
  consistency_score : ℚ
  schema_compliance_rate : ℚ
  avg_validation_score : ℚ
deriving DecidableEq, Repr

/-- QualityScorer.calculate_quality_score: weighted blend clamped to [0,1];
success rate guarded against a zero call count. -/
def calculate_quality_score (metrics : QualityMetrics) : ℚ :=
  let success_rate : ℚ :=
    if 0 < metrics.total_calls
    then (metrics.successful_calls : ℚ) / (metrics.total_calls : ℚ) else 0
  let refusal_score : ℚ := 1 - metrics.refusal_rate
  let quality :=
    metrics.consistency_score * 0.40 + metrics.schema_compliance_rate * 0.25 +
    success_rate * 0.25 + refusal_score * 0.10
  min 1 (max 0 quality)

/-- ParetoPoint (pydantic model). -/
structure ParetoPoint where
  model : String
  cost : ℚ
  quality : ℚ
  is_optimal : Bool
deriving DecidableEq, Repr

/-- A default point, used only to make positional access total. -/
def pdefault : ParetoPoint := ⟨"", 0, 0, false⟩

/-- Strict Pareto dominance: other is at most as costly and at least as good,
with at least one strict inequality (the nested if pair in the source). -/
def dominates (other point : ParetoPoint) : Prop :=
  (other.cost ≤ point.cost ∧ point.quality ≤ other.quality) ∧
  (other.cost < point.cost ∨ point.quality < other.quality)

instance (other point : ParetoPoint) : Decidable (dominates other point) := by
  unfold dominates; infer_instance

/-- The inner loop of find_pareto_frontier: point number i is dominated when
some point with a different index dominates it. -/
def isDominatedAt (points : List ParetoPoint) (i : ℕ) (point : ParetoPoint) : Bool :=
  points.enum.any (fun jq => jq.1 ≠ i && decide (dominates jq.2 point))

/-- The marking pass of find_pareto_frontier: a non-dominated point gets
is_optimal set to true, a dominated one keeps its initial flag. -/
def markPoints (points : List ParetoPoint) : List ParetoPoint :=
  points.enum.map (fun ip =>
    if isDominatedAt points ip.1 ip.2 then ip.2 else { ip.2 with is_optimal := true })

/-- Ordering by ascending cost used for the final sorted call. -/
def costLE (a b : ParetoPoint) : Prop := a.cost ≤ b.cost

instance : DecidableRel costLE := fun a b => inferInstanceAs (Decidable (a.cost ≤ b.cost))

instance : IsTotal ParetoPoint costLE := ⟨fun a b => le_total a.cost b.cost⟩

instance : IsTrans ParetoPoint costLE := ⟨fun _ _ _ h h2 => le_trans h h2⟩

/-- The point list built by the first loop of find_pareto_frontier: one point
per model with is_optimal initialised to False.  The per-model quality is
calculate_quality_score of its metrics; the function is stated over the
resulting (model, cost, quality) triples. -/
def mkPoints (input : List (String × ℚ × ℚ)) : List ParetoPoint :=
  input.map (fun t => ⟨t.1, t.2.1, t.2.2, false⟩)

/-- RecommendationEngine.find_pareto_frontier: build points, mark the
non-dominated ones, return sorted by ascending cost (Python sorted is a
stable sort, as is insertionSort). -/
def find_pareto_frontier (input : List (String × ℚ × ℚ)) : List ParetoPoint :=
  (markPoints (mkPoints input)).insertionSort costLE

/-- find_pareto_frontier applied to a metrics map: quality comes from the
quality scorer, cost from avg_cost_per_call, in map order. -/
def find_pareto_frontier_metrics (metrics_dict : List (String × QualityMetrics)) :
    List ParetoPoint :=
  find_pareto_frontier (metrics_dict.map (fun p =>
    (p.1, p.2.avg_cost_per_call, calculate_quality_score p.2)))

/-- The Python exceptions recommend can raise. -/
inductive RecError where
  | valueError : String → RecError
  | keyError : String → RecError
  | zeroDivisionError : RecError
deriving DecidableEq, Repr

/-- Python dict access d[k]: KeyError when the key is absent. -/
def lookupKey {β : Type} (k : String) (l : List (String × β)) : Except RecError β :=
  match pyDictGet k l with
  | some v => .ok v
  | none => .error (.keyError k)

/-- Python division: ZeroDivisionError on a zero denominator. -/
def checkedDiv (a b : ℚ) : Except RecError ℚ :=
  if b = 0 then .error .zeroDivisionError else .ok (a / b)

/-- max(model_scores, key=model_scores.get): the first key attaining the
maximal value, in iteration order. -/
def argmaxKey : List (String × ℚ) → String
  | [] => ""
  | p :: rest => (rest.foldl (fun best q => if best.2 < q.2 then q else best) p).1

/-- The risk conditions of _identify_risks, as tags; the formatted message
texts are dropped but the division each message performs is kept. -/
inductive RiskTag where
  | latency_increase : RiskTag
  | higher_refusal_rate : RiskTag
  | lower_consistency : RiskTag
  | limited_sample : RiskTag
deriving DecidableEq, Repr

/-- RecommendationEngine._identify_risks.  The latency and consistency
messages divide by the baseline value, so those computations are checked. -/
def _identify_risks (candidate_metrics baseline_metrics : QualityMetrics) :
    Except RecError (List RiskTag) :=
  let r1 : Except RecError (List RiskTag) :=
    if baseline_metrics.avg_latency_ms * 1.5 < candidate_metrics.avg_latency_ms then
      (checkedDiv candidate_metrics.avg_latency_ms baseline_metrics.avg_latency_ms).map
        (fun _ => [.latency_increase])
    else .ok []
  match r1 with
  | .error e => .error e
  | .ok risks1 =>
    let risks2 : List RiskTag :=
      if baseline_metrics.refusal_rate * 2 < candidate_metrics.refusal_rate ∧
         0.01 < candidate_metrics.refusal_rate then [.higher_refusal_rate] else []
    let r3 : Except RecError (List RiskTag) :=
      if candidate_metrics.consistency_score < baseline_metrics.consistency_score * 0.9 then
        (checkedDiv candidate_metrics.consistency_score
          baseline_metrics.consistency_score).map (fun _ => [.lower_consistency])
      else .ok []
    match r3 with
    | .error e => .error e
    | .ok risks3 =>
      let risks4 : List RiskTag :=
        if candidate_metrics.total_calls < 10 then [.limited_sample] else []
      .ok (risks1 ++ risks2 ++ risks3 ++ risks4)

/-- RecommendationEngine._determine_confidence. -/
def _determine_confidence (metrics : QualityMetrics)
    (savings_pct quality_retention_pct : ℚ) : String :=
  let success_rate : ℚ :=
    if 0 < metrics.total_calls
    then (metrics.successful_calls : ℚ) / (metrics.total_calls : ℚ) else 0
  if 10 ≤ metrics.total_calls ∧ metrics.refusal_rate < 0.05 ∧ 0.9 < success_rate ∧
     95 ≤ quality_retention_pct ∧ 20 < savings_pct then "HIGH"
  else if 5 ≤ metrics.total_calls ∧ metrics.refusal_rate < 0.10 ∧ 0.8 < success_rate ∧
     90 ≤ quality_retention_pct then "MEDIUM"
  else "LOW"

/-- One entry of the candidates list built by recommend. -/
structure Candidate where
  model : String
  cost : ℚ
  quality : ℚ
  savings_pct : ℚ
  quality_retention_pct : ℚ
  value_score : ℚ
  metrics : QualityMetrics
deriving DecidableEq, Repr

/-- Descending value_score, the sort key of the candidates list. -/
def valueGE (a b : Candidate) : Prop := b.value_score ≤ a.value_score

instance : DecidableRel valueGE := fun a b => inferInstanceAs (Decidable (b.value_score ≤ a.value_score))

/-- The candidate loop of recommend: iterate the FULL metrics map in order,
skip the baseline, read the quality from the model_scores map (KeyError for
a model absent from it), keep cheaper models of acceptable quality. -/
def collectCandidates (baseline_name : String) (model_scores : List (String × ℚ))
    (min_acceptable_quality baseline_cost baseline_quality : ℚ) :
    List (String × QualityMetrics) → Except RecError (List Candidate)
  | [] => .ok []
  | (model, metrics) :: rest =>
    if model = baseline_name then
      collectCandidates baseline_name model_scores min_acceptable_quality
        baseline_cost baseline_quality rest
    else
      match lookupKey model model_scores with
      | .error e => .error e
      | .ok quality =>
        let cost := metrics.avg_cost_per_call
        if min_acceptable_quality ≤ quality ∧ cost < baseline_cost then
          match checkedDiv (baseline_cost - cost) baseline_cost with
          | .error e => .error e
          | .ok savings_frac =>
            let savings_pct := savings_frac * 100
            match checkedDiv quality baseline_quality with
            | .error e => .error e
            | .ok retention_frac =>
              let quality_retention_pct := retention_frac * 100
              let value_score := quality * savings_pct
              match collectCandidates baseline_name model_scores
                  min_acceptable_quality baseline_cost baseline_quality rest with
              | .error e => .error e
              | .ok cs =>
                .ok (⟨model, cost, quality, savings_pct, quality_retention_pct,
                      value_score, metrics⟩ :: cs)
        else
          collectCandidates baseline_name model_scores min_acceptable_quality
            baseline_cost baseline_quality rest

/-- Recommendation (pydantic model).  The human-readable reasoning string is
dropped (its success-rate division is kept in recommend); risks are tags. -/
structure Recommendation where
  recommended_model : String
  confidence : String
  baseline_model : String
  cost_savings_pct : ℚ
  cost_savings_usd_per_1k : ℚ
  quality_retention_pct : ℚ
  tested_on_calls : ℤ
  risks : List RiskTag
deriving DecidableEq, Repr

/-- RecommendationEngine.recommend. -/
def recommend (metrics_dict : List (String × QualityMetrics))
    (max_quality_loss _min_cost_savings : ℚ) : Except RecError Recommendation :=
  match metrics_dict with
  | [] => .error (.valueError "No metrics to analyze")
  | _ :: _ =>
    let valid_metrics := metrics_dict.filter (fun p => 0 < p.2.successful_calls)
    match valid_metrics with
    | [] => .error (.valueError "No models succeeded - all calls failed")
    | _ :: _ =>
      let model_scores := valid_metrics.map (fun p => (p.1, calculate_quality_score p.2))
      let baseline_name := argmaxKey model_scores
      match lookupKey baseline_name valid_metrics with
      | .error e => .error e
      | .ok baseline_metrics =>
        match lookupKey baseline_name model_scores with
        | .error e => .error e
        | .ok baseline_quality =>
          let baseline_cost := baseline_metrics.avg_cost_per_call
          let min_acceptable_quality := baseline_quality * (1 - max_quality_loss)
          match collectCandidates baseline_name model_scores min_acceptable_quality
              baseline_cost baseline_quality metrics_dict with
          | .error e => .error e
          | .ok candidates0 =>
            let candidates := candidates0.insertionSort valueGE
            match candidates with
            | [] =>
              .ok ⟨baseline_name, "HIGH", baseline_name, 0, 0, 100,
                   baseline_metrics.total_calls, []⟩
            | best :: _ =>
              let confidence := _determine_confidence best.metrics best.savings_pct
                best.quality_retention_pct
              let savings_per_1k := (baseline_cost - best.cost) * 1000
              match _identify_risks best.metrics baseline_metrics with
              | .error e => .error e
              | .ok risks =>
                match checkedDiv (best.metrics.successful_calls : ℚ)
                    (best.metrics.total_calls : ℚ) with
                | .error e => .error e
                | .ok _success_rate =>
                  .ok ⟨best.model, confidence, baseline_name, best.savings_pct,
                       savings_per_1k, best.quality_retention_pct,
                       best.metrics.total_calls, risks⟩

/-! Concrete inputs used by witness and counterexample theorems. -/

/-- A store whose exact-match row (limit 1, queried model) carries a 0.97
similarity, while every other query (in particular the family-member query at
limit 3) yields a 5-sample row without a similarity attribute. -/
def dbWitness : DBFun := fun _ m _ l =>
  if m = "gpt-4o" ∧ l = 1 then some ⟨some 80, "HIGH", some 0.97, some 1⟩
  else some ⟨some 60, "HIGH", none, some 5⟩

/-- A policy whose three ensemble weights are all zero. -/
def cfgZeroW : ScenarioConfig := ⟨0.10, 0, 0, 0, 75⟩

/-- Metrics giving quality score 0.95 at cost 10 (baseline A of §8). -/
def mA : QualityMetrics := ⟨"A", 10, 10, 0, 0.5, 10, 100, 100, 100, 100, 1, 1, 0⟩

/-- Metrics giving quality score 0.90 at cost 2 (rejected candidate B). -/
def mB : QualityMetrics := ⟨"B", 10, 10, 0, 1, 2, 20, 100, 100, 100, 1, 1, 0⟩

/-- Metrics giving quality score 0.93 at cost 3 (accepted candidate C). -/
def mC : QualityMetrics := ⟨"C", 10, 10, 0, 0.7, 3, 30, 100, 100, 100, 1, 1, 0⟩

/-- One successful call but quality score clamped to 0: the refusal rate 10
(a plain unconstrained float in the pydantic model) drags the blend below 0. -/
def mA0 : QualityMetrics := ⟨"A", 1, 1, 0, 10, 10, 10, 100, 100, 100, 0, 0, 0⟩

/-- A cheaper model with the same zero quality score. -/
def mB0 : QualityMetrics := ⟨"B", 1, 1, 0, 10, 5, 5, 100, 100, 100, 0, 0, 0⟩

/-- A model all of whose calls failed. -/
def mC0 : QualityMetrics := ⟨"C", 1, 0, 1, 0, 1, 1, 100, 100, 100, 0, 0, 0⟩

/-- A metrics map with one succeeding model of zero quality score, a cheaper
qualifying model, and an all-failed model listed last. -/
def cexMetrics : List (String × QualityMetrics) := [("A", mA0), ("B", mB0), ("C", mC0)]

/-- Concrete (model, cost, quality) triples of the §8 Pareto example. -/
def paretoExample : List (String × ℚ × ℚ) :=
  [("m1", 1, 9/10), ("m2", 2, 95/100), ("m3", 1, 1/2)]

/-- A validator environment for witness runs: empty store, constant
classifier, judge returning None. -/
def envWitness : HybridValidator.CallEnv :=
  ⟨fun _ _ _ _ => none, fun _ => "general", 0, .ok none⟩

/-- A forced validate call in that environment. -/
def callWitness : HybridValidator.Call :=
  ⟨envWitness, ⟨[[("content", "hello")]]⟩, "A fine answer with enough length.",
   "gpt-4o", "discovery", true⟩

/-- A validator state whose spend has reached the full budget. -/
def stSpent : HybridValidator.VState := ⟨true, 10, 10⟩

/-! Theorems. -/

/-- Dict access finds nothing exactly when the key is absent. -/
theorem lookup_eq_none_iff {β : Type} (l : List (String × β)) (k : String) :
    pyDictGet k l = none ↔ k ∉ l.map Prod.fst := by
  induction l with
  | nil => simp [pyDictGet]
  | cons p rest ih =>
    simp only [pyDictGet, List.map_cons, List.mem_cons]
    by_cases h : k = p.1
    · simp [h]
    · simp [h, ih]

/-- A successful dict access returns a member pair. -/
theorem mem_of_lookup {β : Type} (l : List (String × β)) (k : String) (v : β)
    (h : pyDictGet k l = some v) : (k, v) ∈ l := by
  induction l with
  | nil => simp [pyDictGet] at h
  | cons p rest ih =>
    obtain ⟨pk, pv⟩ := p
    simp only [pyDictGet] at h
    by_cases hk : k = pk
    · rw [if_pos hk] at h
      simp only [Option.some.injEq] at h
      subst hk
      subst h
      exact List.mem_cons_self _ _
    · rw [if_neg hk] at h
      exact List.mem_cons_of_mem _ (ih h)

/-- A present key makes dict access succeed. -/
theorem lookup_isSome_of_mem {β : Type} (l : List (String × β)) (k : String)
    (h : k ∈ l.map Prod.fst) : ∃ v, pyDictGet k l = some v := by
  cases hl : pyDictGet k l with
  | some v => exact ⟨v, rfl⟩
  | none => exact absurd h ((lookup_eq_none_iff l k).1 hl)

/-- The confidence ordinal never exceeds the rank of HIGH. -/
theorem confLevel_le_three (c : String) : SmartCacheStrategy.confLevel c ≤ 3 := by
  unfold SmartCacheStrategy.confLevel
  split_ifs <;> omega

/-- C5. Score combination is an identity on a single present signal and
defaults to the neutral 50.0 with no signals, for every policy (including the
omitted-policy case that falls back to the general configuration). -/
theorem C5_single_signal_identity (cfg : Option ScenarioConfig) (s : ℚ) :
    HybridValidator._combine_scores (some s) none none cfg = s ∧
    HybridValidator._combine_scores none (some s) none cfg = s ∧
    HybridValidator._combine_scores none none (some s) cfg = s ∧
    HybridValidator._combine_scores none none none cfg = 50 := by
  unfold HybridValidator._combine_scores
  refine ⟨?_, ?_, ?_, by simp⟩
  · by_cases h : (cfg.getD (get_scenario_config "general")).llm_judge_weight = 0
    · simp [h]
    · simp [h, mul_div_cancel_right₀]
  · by_cases h : (cfg.getD (get_scenario_config "general")).heuristic_weight = 0
    · simp [h]
    · simp [h, mul_div_cancel_right₀]
  · by_cases h : (cfg.getD (get_scenario_config "general")).db_weight = 0
    · simp [h]
    · simp [h, mul_div_cancel_right₀]

/-- Witness for C5 at the general policy and signal 73. -/
theorem C5_witness :
    HybridValidator._combine_scores (some 73) none none none = 73 ∧
    HybridValidator._combine_scores none (some 73) none none = 73 ∧
    HybridValidator._combine_scores none none (some 73) none = 73 ∧
    HybridValidator._combine_scores none none none none = 50 :=
  C5_single_signal_identity none 73

/-- C10. When the configured weights of the present signals sum to zero,
_combine_scores returns the unweighted arithmetic mean of the present scores
instead of the weighted quotient, for each of the seven nonempty presence
combinations. -/
theorem C10_zero_weight_mean (cfg : ScenarioConfig) (a b c : ℚ) :
    (cfg.llm_judge_weight + cfg.heuristic_weight + cfg.db_weight = 0 →
      HybridValidator._combine_scores (some a) (some b) (some c) (some cfg) = (a + b + c) / 3) ∧
    (cfg.llm_judge_weight + cfg.heuristic_weight = 0 →
      HybridValidator._combine_scores (some a) (some b) none (some cfg) = (a + b) / 2) ∧
    (cfg.llm_judge_weight + cfg.db_weight = 0 →
      HybridValidator._combine_scores (some a) none (some c) (some cfg) = (a + c) / 2) ∧
    (cfg.heuristic_weight + cfg.db_weight = 0 →
      HybridValidator._combine_scores none (some b) (some c) (some cfg) = (b + c) / 2) ∧
    (cfg.llm_judge_weight = 0 →
      HybridValidator._combine_scores (some a) none none (some cfg) = a) ∧
    (cfg.heuristic_weight = 0 →
      HybridValidator._combine_scores none (some b) none (some cfg) = b) ∧
    (cfg.db_weight = 0 →
      HybridValidator._combine_scores none none (some c) (some cfg) = c) := by
  unfold HybridValidator._combine_scores
  refine ⟨fun h => ?_, fun h => ?_, fun h => ?_, fun h => ?_, fun h => ?_,
    fun h => ?_, fun h => ?_⟩ <;>
    simp only [Option.getD_some, List.cons_append, List.nil_append,
      List.map_cons, List.map_nil, List.sum_cons, List.sum_nil, List.length_cons,
      List.length_nil] <;>
    rw [if_neg (by simp)] <;>
    rw [if_pos (by linarith)] <;>
    push_cast <;> ring_nf

/-- Witness for C10: the all-zero-weight policy on signals 10, 20, 60. -/
theorem C10_witness :
    HybridValidator._combine_scores (some 10) (some 20) (some 60) (some cfgZeroW) =
      (10 + 20 + 60) / 3 :=
  (C10_zero_weight_mean cfgZeroW 10 20 60).1 (by norm_num [cfgZeroW])

/-- C6. Any output matching a refusal phrase (case-insensitively) makes
HeuristicValidator.validate return score 0 with confidence HIGH, independent
of schema, minimum length and expected language (the refusal check returns
before any of those checks run). -/
theorem C6_refusal_zero (output : String) (schemaValid : Option Bool)
    (min_length : ℕ) (expected_language : String)
    (h : HeuristicValidator._is_refusal output = true) :
    (HeuristicValidator.validate output schemaValid min_length expected_language).score = 0 ∧
    (HeuristicValidator.validate output schemaValid min_length expected_language).confidence
      = "HIGH" := by
  unfold HeuristicValidator.validate
  by_cases he : output = "" ∨ (pyStrip output).length = 0
  · rw [if_pos he]; exact ⟨rfl, rfl⟩
  · rw [if_neg he, if_pos h]; exact ⟨rfl, rfl⟩

/-- Witness for C6 at the §8 phrase. -/
theorem C6_witness :
    (HeuristicValidator.validate "I cannot provide information about that topic."
      none 10 "en").score = 0 ∧
    (HeuristicValidator.validate "I cannot provide information about that topic."
      none 10 "en").confidence = "HIGH" :=
  C6_refusal_zero _ none 10 "en" (by decide)

/-- C4. When the store yields an exact-match row (limit-1 query on the same
prompt, model and scenario) with a present similarity of at least 0.95, lookup
returns that row as an exact_match HIGH result for every minimum confidence
(each ordinal rank is at most the rank of HIGH), regardless of any
model-family hit that also exists — the family level is never consulted. -/
theorem C4_exact_match_priority (db : DBFun)
    (prompt model scenario min_confidence : String)
    (r : DBResult) (s sim : ℚ)
    (hdb : db prompt model scenario 1 = some r)
    (havg : r.avg_score = some s)
    (hsim : r.similarity = some sim) (h95 : (0.95 : ℚ) ≤ sim)
    (fm : String) (rf : DBResult) (nf : ℕ)
    (_hfm : fm ∈ get_family_models (get_model_family model)) (_hne : fm ≠ model)
    (_hdbf : db prompt fm scenario 3 = some rf) (_havgf : rf.avg_score.isSome)
    (_hcnt : rf.count = some nf) (_h3 : 3 ≤ nf) :
    SmartCacheStrategy.lookup db prompt model scenario min_confidence =
      some ⟨s, "HIGH", "exact_match", "historical_db", "Exact match found",
            r.count.getD 1, 0⟩ := by
  have hm : SmartCacheStrategy._meets_min_confidence "HIGH" min_confidence = true := by
    unfold SmartCacheStrategy._meets_min_confidence
    simpa [SmartCacheStrategy.confLevel] using confLevel_le_three min_confidence
  unfold SmartCacheStrategy.lookup SmartCacheStrategy._exact_match
  rw [hdb]
  simp only [havg, hsim]
  rw [if_pos h95]
  simp [hm]

/-- Membership in List.enum is positional access. -/
theorem mem_enum_iff {α : Type} (l : List α) (j : ℕ) (x : α) :
    (j, x) ∈ l.enum ↔ l[j]? = some x := by
  rw [List.mem_iff_getElem?]
  constructor
  · rintro ⟨i, hi⟩
    rw [List.getElem?_enum] at hi
    cases h : l[i]? with
    | none => rw [h] at hi; exact absurd hi (by simp)
    | some a =>
      rw [h] at hi
      simp only [Option.map] at hi
      injection hi with h2
      injection h2 with hij hax
      rw [← hij, h, hax]
  · intro h
    exact ⟨j, by rw [List.getElem?_enum, h]; rfl⟩

/-- An in-bounds getD is a member. -/
theorem getD_mem {α : Type} (l : List α) (i : ℕ) (d : α) (h : i < l.length) :
    l.getD i d ∈ l := by
  rw [List.getD_eq_getElem?_getD, List.getElem?_eq_getElem h]
  exact List.getElem_mem h

/-- The inner dominance loop finds exactly a dominating point at a distinct
index. -/
theorem isDominatedAt_iff (pts : List ParetoPoint) (i : ℕ) (p : ParetoPoint) :
    isDominatedAt pts i p = true ↔
      ∃ j, j < pts.length ∧ j ≠ i ∧ dominates (pts.getD j pdefault) p := by
  unfold isDominatedAt
  rw [List.any_eq_true]
  constructor
  · rintro ⟨⟨j, q⟩, hmem, hcond⟩
    rw [mem_enum_iff] at hmem
    simp only [Bool.and_eq_true, decide_eq_true_eq] at hcond
    obtain ⟨hlt, hq⟩ := List.getElem?_eq_some.1 hmem
    refine ⟨j, hlt, hcond.1, ?_⟩
    rw [List.getD_eq_getElem?_getD, List.getElem?_eq_getElem hlt, hq]
    exact hcond.2
  · rintro ⟨j, hlt, hne, hdom⟩
    refine ⟨(j, pts.getD j pdefault), ?_, ?_⟩
    · rw [mem_enum_iff, List.getD_eq_getElem?_getD, List.getElem?_eq_getElem hlt]
      rfl
    · simp only [Bool.and_eq_true, decide_eq_true_eq]
      exact ⟨hne, hdom⟩

/-- The marking pass preserves length. -/
theorem markPoints_length (pts : List ParetoPoint) :
    (markPoints pts).length = pts.length := by
  simp [markPoints, List.enum_length]

/-- Positional description of the marking pass. -/
theorem markPoints_getD (pts : List ParetoPoint) (i : ℕ) (h : i < pts.length) :
    (markPoints pts).getD i pdefault =
      (if isDominatedAt pts i (pts.getD i pdefault) then pts.getD i pdefault
       else { pts.getD i pdefault with is_optimal := true }) := by
  have hget : pts.getD i pdefault = pts[i] := by
    rw [List.getD_eq_getElem?_getD, List.getElem?_eq_getElem h]; rfl
  unfold markPoints
  rw [List.getD_eq_getElem?_getD, List.getElem?_map, List.getElem?_enum,
    List.getElem?_eq_getElem h, hget]
  rfl

/-- Every freshly built point starts with is_optimal false. -/
theorem mkPoints_is_optimal_false (input : List (String × ℚ × ℚ)) (i : ℕ)
    (h : i < input.length) :
    ((mkPoints input).getD i pdefault).is_optimal = false := by
  have hlen : i < (mkPoints input).length := by simpa [mkPoints] using h
  have hmem : (mkPoints input).getD i pdefault ∈ mkPoints input :=
    getD_mem _ _ _ hlen
  simp only [mkPoints, List.mem_map] at hmem ⊢
  obtain ⟨t, _, ht⟩ := hmem
  rw [← ht]

/-- C2. find_pareto_frontier returns the marked points sorted by ascending
cost, and the marking pass sets is_optimal exactly for the points no other
point (at a distinct index) dominates; on the §8 example the two points
(cost 1, quality 0.9) and (cost 2, quality 0.95) are optimal and
(cost 1, quality 0.5) is not. -/
theorem C2_pareto_frontier :
    (∀ input : List (String × ℚ × ℚ),
      (find_pareto_frontier input).Sorted costLE ∧
      (find_pareto_frontier input).Perm (markPoints (mkPoints input)) ∧
      (∀ i, i < input.length →
        (((markPoints (mkPoints input)).getD i pdefault).is_optimal = true ↔
          ¬∃ j, j < input.length ∧ j ≠ i ∧
            dominates ((mkPoints input).getD j pdefault)
              ((mkPoints input).getD i pdefault)))) ∧
    find_pareto_frontier paretoExample =
      [⟨"m1", 1, 9/10, true⟩, ⟨"m3", 1, 1/2, false⟩, ⟨"m2", 2, 95/100, true⟩] := by
  constructor
  · intro input
    refine ⟨List.sorted_insertionSort costLE _, List.perm_insertionSort costLE _, ?_⟩
    intro i h
    have hlen : i < (mkPoints input).length := by simpa [mkPoints] using h
    have hlen' : (mkPoints input).length = input.length := by simp [mkPoints]
    rw [markPoints_getD _ _ hlen]
    by_cases hdom : isDominatedAt (mkPoints input) i ((mkPoints input).getD i pdefault) = true
    · rw [if_pos hdom]
      rw [isDominatedAt_iff] at hdom
      rw [hlen'] at hdom
      simp only [mkPoints_is_optimal_false input i h, Bool.false_eq_true, false_iff,
        not_not]
      exact hdom
    · rw [if_neg hdom]
      simp only [true_iff]
      intro hcontra
      apply hdom
      rw [isDominatedAt_iff, hlen']
      exact hcontra
  · norm_num [find_pareto_frontier, markPoints, mkPoints, paretoExample,
      isDominatedAt, dominates, List.insertionSort, List.orderedInsert, costLE,
      List.enum, List.enumFrom]

/-- Witness for C2: the marking predicate applied at the dominated point
(index 2, cost 1, quality 0.5) of the §8 example. -/
theorem C2_witness :
    ((markPoints (mkPoints paretoExample)).getD 2 pdefault).is_optimal = true ↔
      ¬∃ j, j < paretoExample.length ∧ j ≠ 2 ∧
        dominates ((mkPoints paretoExample).getD j pdefault)
          ((mkPoints paretoExample).getD 2 pdefault) :=
  (C2_pareto_frontier.1 paretoExample).2.2 2 (by norm_num [paretoExample])

/-- Witness for C4: concrete store with both an exact-match row (similarity
0.97) and a 5-sample family row for gpt-4o-mini, a family sibling of the
queried gpt-4o. -/
theorem C4_witness :
    SmartCacheStrategy.lookup dbWitness "p" "gpt-4o" "general" "MEDIUM" =
      some ⟨80, "HIGH", "exact_match", "historical_db", "Exact match found", 1, 0⟩ :=
  C4_exact_match_priority dbWitness "p" "gpt-4o" "general" "MEDIUM"
    ⟨some 80, "HIGH", some 0.97, some 1⟩ 80 0.97 rfl rfl rfl (by norm_num)
    "gpt-4o-mini" ⟨some 60, "HIGH", none, some 5⟩ 5 (by decide) (by decide)
    rfl rfl rfl (by decide)

/-- C3. With max_quality_loss 0.05, baseline A (quality 0.95, cost 10)
rejects B (quality 0.90 < 0.9025) and is itself recommended at 0 percent
savings with no risks; adding C (quality 0.93, cost 3) makes C the
recommendation with 70 percent savings and quality retention 1860/19,
which is about 97.9 percent. -/
theorem C3_recommend_reject_accept :
    recommend [("A", mA), ("B", mB)] 0.05 0.10 =
      .ok ⟨"A", "HIGH", "A", 0, 0, 100, 10, []⟩ ∧
    recommend [("A", mA), ("B", mB), ("C", mC)] 0.05 0.10 =
      .ok ⟨"C", "LOW", "A", 70, 7000, 1860/19, 10, []⟩ ∧
    ((97.89 : ℚ) < 1860/19 ∧ (1860/19 : ℚ) < 97.9) := by
  have hBA : ("B" : String) ≠ "A" := by simp
  have hCA : ("C" : String) ≠ "A" := by simp
  have hCB : ("C" : String) ≠ "B" := by simp
  refine ⟨?_, ?_, by norm_num⟩ <;>
  norm_num [recommend, mA, mB, mC, calculate_quality_score, argmaxKey, lookupKey,
    collectCandidates, checkedDiv, _determine_confidence, _identify_risks,
    List.insertionSort, List.orderedInsert, valueGE, pyDictGet, List.filter,
    Except.map, hBA, hCA, hCB]

/-- An Except.map error comes from an error of the argument. -/
theorem map_error_shape {α β : Type} (f : α → β) (x : Except RecError α)
    (e : RecError) (h : Except.map f x = .error e) : x = .error e := by
  cases x with
  | error e2 => simp only [Except.map] at h; injection h with h2; rw [h2]
  | ok a => simp [Except.map] at h

/-- A failing dict access raises exactly a KeyError on the looked-up key. -/
theorem lookupKey_error_shape {β : Type} (k : String) (l : List (String × β))
    (e : RecError) (h : lookupKey k l = .error e) : e = .keyError k := by
  unfold lookupKey at h
  cases hp : pyDictGet k l with
  | some v => rw [hp] at h; exact absurd h (by simp)
  | none =>
    rw [hp] at h
    injection h with h2
    rw [h2]

/-- A failing checked division raises exactly ZeroDivisionError. -/
theorem checkedDiv_error_shape (a b : ℚ) (e : RecError)
    (h : checkedDiv a b = .error e) : e = .zeroDivisionError := by
  unfold checkedDiv at h
  split at h
  · injection h with h2; rw [h2]
  · exact absurd h (by simp)

/-- _identify_risks can only fail with ZeroDivisionError. -/
theorem identify_risks_error_shape (c b : QualityMetrics) (e : RecError)
    (h : _identify_risks c b = .error e) : e = .zeroDivisionError := by
  unfold _identify_risks at h
  by_cases h1 : b.avg_latency_ms * 1.5 < c.avg_latency_ms <;>
    by_cases h3 : c.consistency_score < b.consistency_score * 0.9 <;>
    cases hd1 : checkedDiv c.avg_latency_ms b.avg_latency_ms <;>
    cases hd3 : checkedDiv c.consistency_score b.consistency_score <;>
    simp only [h1, h3, hd1, hd3, if_true, if_false, ite_true, ite_false,
      Except.map] at h <;>
    first
      | (injection h with h2; rw [← h2];
         first
           | exact checkedDiv_error_shape _ _ _ hd1
           | exact checkedDiv_error_shape _ _ _ hd3)
      | exact absurd h (by simp)

/-- The candidate loop can only fail with a KeyError or ZeroDivisionError. -/
theorem collectCandidates_error_shape (bn : String) (ms : List (String × ℚ))
    (ma bc bq : ℚ) :
    ∀ (l : List (String × QualityMetrics)) (e : RecError),
      collectCandidates bn ms ma bc bq l = .error e →
      (∃ k, e = .keyError k) ∨ e = .zeroDivisionError := by
  intro l
  induction l with
  | nil => intro e h; exact absurd h (by simp [collectCandidates])
  | cons p rest ih =>
    intro e h
    obtain ⟨model, metrics⟩ := p
    unfold collectCandidates at h
    dsimp only at h
    by_cases hb : model = bn
    · rw [if_pos hb] at h
      exact ih e h
    · rw [if_neg hb] at h
      cases hlk : lookupKey model ms with
      | error e1 =>
        simp only [hlk] at h
        injection h with h2
        exact Or.inl ⟨model, by rw [← h2, lookupKey_error_shape _ _ _ hlk]⟩
      | ok quality =>
        simp only [hlk] at h
        by_cases hq : ma ≤ quality ∧ metrics.avg_cost_per_call < bc
        · rw [if_pos hq] at h
          cases hd1 : checkedDiv (bc - metrics.avg_cost_per_call) bc with
          | error e2 =>
            simp only [hd1] at h
            injection h with h2
            exact Or.inr (by rw [← h2]; exact checkedDiv_error_shape _ _ _ hd1)
          | ok sf =>
            simp only [hd1] at h
            cases hd2 : checkedDiv quality bq with
            | error e3 =>
              simp only [hd2] at h
              injection h with h2
              exact Or.inr (by rw [← h2]; exact checkedDiv_error_shape _ _ _ hd2)
            | ok rf =>
              simp only [hd2] at h
              cases hrec : collectCandidates bn ms ma bc bq rest with
              | error e4 =>
                simp only [hrec] at h
                injection h with h2
                exact h2 ▸ ih e4 hrec
              | ok cs =>
                simp only [hrec] at h
                exact absurd h (by simp)
        · rw [if_neg hq] at h
          exact ih e h

/-- Any error of recommend is one of the two documented ValueErrors (empty
map, or no succeeding model) or a KeyError or ZeroDivisionError from the
candidate machinery. -/
theorem recommend_error_cases (m : List (String × QualityMetrics))
    (loss minsav : ℚ) (e : RecError)
    (h : recommend m loss minsav = .error e) :
    (m = [] ∧ e = .valueError "No metrics to analyze") ∨
    (m.filter (fun p => 0 < p.2.successful_calls) = [] ∧
      e = .valueError "No models succeeded - all calls failed") ∨
    ((∃ k, e = .keyError k) ∨ e = .zeroDivisionError) := by
  cases m with
  | nil =>
    left
    refine ⟨rfl, ?_⟩
    unfold recommend at h
    injection h with h2
    rw [h2]
  | cons x xs =>
    unfold recommend at h
    dsimp only at h
    cases hf : List.filter (fun p => decide (0 < p.2.successful_calls)) (x :: xs) with
    | nil =>
      simp only [hf] at h
      right; left
      refine ⟨rfl, ?_⟩
      injection h with h2
      exact h2.symm
    | cons v vs =>
      simp only [hf] at h
      right; right
      split at h
      · rename_i e1 h1
        injection h with h2
        exact Or.inl ⟨_, by rw [← h2]; exact lookupKey_error_shape _ _ _ h1⟩
      · split at h
        · rename_i e1 h1
          injection h with h2
          exact Or.inl ⟨_, by rw [← h2]; exact lookupKey_error_shape _ _ _ h1⟩
        · split at h
          · rename_i e1 h1
            injection h with h2
            exact h2 ▸ collectCandidates_error_shape _ _ _ _ _ _ _ h1
          · split at h
            · exact absurd h (by simp)
            · split at h
              · rename_i e1 h1
                injection h with h2
                exact Or.inr (by rw [← h2]; exact identify_risks_error_shape _ _ _ h1)
              · split at h
                · rename_i e1 h1
                  injection h with h2
                  exact Or.inr (by rw [← h2]; exact checkedDiv_error_shape _ _ _ h1)
                · exact absurd h (by simp)

/-- C8. recommend raises a ValueError exactly when the metrics map is empty
or no model in it has a successful call; both raises happen before any
recommendation is computed, and no later step can produce a ValueError. -/
theorem C8_valueError_iff (m : List (String × QualityMetrics)) (loss minsav : ℚ) :
    (∃ s, recommend m loss minsav = .error (.valueError s)) ↔
      (m = [] ∨ ∀ p ∈ m, ¬ 0 < p.2.successful_calls) := by
  constructor
  · rintro ⟨s, hs⟩
    rcases recommend_error_cases m loss minsav _ hs with ⟨h1, _⟩ | ⟨h1, _⟩ | hshape
    · exact Or.inl h1
    · right
      intro p hp
      have h2 := List.filter_eq_nil_iff.1 h1 p hp
      simpa using h2
    · rcases hshape with ⟨k, hk⟩ | hz
      · exact absurd hk (by simp)
      · exact absurd hz (by simp)
  · intro hcond
    rcases hcond with h1 | h2
    · subst h1
      exact ⟨"No metrics to analyze", rfl⟩
    · cases m with
      | nil => exact ⟨"No metrics to analyze", rfl⟩
      | cons x xs =>
        refine ⟨"No models succeeded - all calls failed", ?_⟩
        have hf : List.filter (fun p => decide (0 < p.2.successful_calls)) (x :: xs) = [] :=
          List.filter_eq_nil_iff.2 (fun a ha => by simpa using h2 a ha)
        unfold recommend
        dsimp only
        simp only [hf]

/-- Witness for C8: the empty metrics map raises a ValueError. -/
theorem C8_witness : ∃ s, recommend [] 0.05 0.10 = .error (.valueError s) :=
  (C8_valueError_iff [] 0.05 0.10).2 (Or.inl rfl)

/-- Counterexample to C9 as stated: this map holds a succeeding model A and
an all-failed model C, yet recommend raises ZeroDivisionError, not KeyError.
A succeeds but its quality score is clamped to 0 (refusal_rate 10 drags the
blend negative), so the qualifying cheaper candidate B, processed before the
loop reaches C, divides by the zero baseline quality. -/
theorem C9_counterexample :
    (∃ p ∈ cexMetrics, 0 < p.2.successful_calls) ∧
    (∃ p ∈ cexMetrics, p.2.successful_calls = 0) ∧
    recommend cexMetrics 0.05 0.10 = .error .zeroDivisionError ∧
    ∀ k, recommend cexMetrics 0.05 0.10 ≠ .error (.keyError k) := by
  have hBA : ("B" : String) ≠ "A" := by simp
  have hCA : ("C" : String) ≠ "A" := by simp
  have hCB : ("C" : String) ≠ "B" := by simp
  have hrec : recommend cexMetrics 0.05 0.10 = .error .zeroDivisionError := by
    norm_num [recommend, cexMetrics, mA0, mB0, mC0, calculate_quality_score,
      argmaxKey, lookupKey, collectCandidates, checkedDiv, pyDictGet,
      List.filter, Except.map, hBA, hCA, hCB]
  refine ⟨⟨("A", mA0), by simp [cexMetrics], by norm_num [mA0]⟩,
    ⟨("C", mC0), by simp [cexMetrics], rfl⟩, hrec, ?_⟩
  intro k
  rw [hrec]
  simp

/-- The argmax fold returns its seed or a list element. -/
theorem foldl_max_mem {β : Type} (f : (String × β) → (String × β) → (String × β))
    (hf : ∀ a b, f a b = a ∨ f a b = b) :
    ∀ (rest : List (String × β)) (acc : String × β),
      rest.foldl f acc = acc ∨ rest.foldl f acc ∈ rest := by
  intro rest
  induction rest with
  | nil => intro acc; exact Or.inl rfl
  | cons r rs ih =>
    intro acc
    simp only [List.foldl_cons]
    rcases ih (f acc r) with h | h
    · rcases hf acc r with h2 | h2
      · rw [h, h2]; exact Or.inl rfl
      · rw [h, h2]; exact Or.inr (List.mem_cons_self _ _)
    · exact Or.inr (List.mem_cons_of_mem _ h)

/-- argmaxKey of a nonempty score map is one of its keys. -/
theorem argmaxKey_mem (l : List (String × ℚ)) (h : l ≠ []) :
    argmaxKey l ∈ l.map Prod.fst := by
  cases l with
  | nil => exact absurd rfl h
  | cons p rest =>
    unfold argmaxKey
    dsimp only
    have hf : ∀ a b : String × ℚ, (if a.2 < b.2 then b else a) = a ∨
        (if a.2 < b.2 then b else a) = b := by
      intro a b
      by_cases hab : a.2 < b.2
      · rw [if_pos hab]; exact Or.inr rfl
      · rw [if_neg hab]; exact Or.inl rfl
    rcases foldl_max_mem _ hf rest p with h2 | h2
    · rw [h2]; simp
    · simp only [List.map_cons, List.mem_cons]
      exact Or.inr (List.mem_map_of_mem Prod.fst h2)

/-- In a map with nodup keys, equal keys force equal entries. -/
theorem eq_of_mem_nodup_keys {β : Type} (l : List (String × β))
    (hnd : (l.map Prod.fst).Nodup) (a b : String × β)
    (ha : a ∈ l) (hb : b ∈ l) (hk : a.1 = b.1) : a = b := by
  induction l with
  | nil => exact absurd ha (List.not_mem_nil a)
  | cons p rest ih =>
    simp only [List.map_cons, List.nodup_cons] at hnd
    rcases List.mem_cons.1 ha with ha1 | ha1 <;> rcases List.mem_cons.1 hb with hb1 | hb1
    · rw [ha1, hb1]
    · exfalso
      apply hnd.1
      have hbp : b.1 = p.1 := by rw [← hk, ha1]
      rw [← hbp]
      exact List.mem_map_of_mem Prod.fst hb1
    · exfalso
      apply hnd.1
      have hap : a.1 = p.1 := by rw [hk, hb1]
      rw [← hap]
      exact List.mem_map_of_mem Prod.fst ha1
    · exact ih hnd.2 ha1 hb1

/-- A present key makes lookupKey succeed. -/
theorem lookupKey_ok_of_mem {β : Type} (l : List (String × β)) (k : String)
    (h : k ∈ l.map Prod.fst) : ∃ v, lookupKey k l = .ok v := by
  obtain ⟨v, hv⟩ := lookup_isSome_of_mem l k h
  exact ⟨v, by unfold lookupKey; rw [hv]⟩

/-- An absent key makes lookupKey raise KeyError. -/
theorem lookupKey_keyError_of_not_mem {β : Type} (l : List (String × β)) (k : String)
    (h : k ∉ l.map Prod.fst) : lookupKey k l = .error (.keyError k) := by
  unfold lookupKey
  rw [(lookup_eq_none_iff l k).2 h]

/-- A successful lookupKey is a successful dict access. -/
theorem lookupKey_ok_shape {β : Type} (l : List (String × β)) (k : String) (v : β)
    (h : lookupKey k l = .ok v) : pyDictGet k l = some v := by
  unfold lookupKey at h
  cases hp : pyDictGet k l with
  | some w =>
    rw [hp] at h
    injection h with h2
    rw [h2]
  | none => rw [hp] at h; exact absurd h (by simp)

/-- Reaching an all-failed model: when some entry of the loop list has a key
absent from the score map (and distinct from the baseline), every model has
nonnegative cost and the baseline quality is nonzero, the candidate loop
raises a KeyError. -/
theorem collect_keyError (bn : String) (ms : List (String × ℚ)) (ma bc bq : ℚ)
    (hbq : bq ≠ 0) :
    ∀ (l : List (String × QualityMetrics)),
      (∃ p ∈ l, pyDictGet p.1 ms = none ∧ p.1 ≠ bn) →
      (∀ p ∈ l, 0 ≤ p.2.avg_cost_per_call) →
      ∃ k, collectCandidates bn ms ma bc bq l = .error (.keyError k) := by
  intro l
  induction l with
  | nil => rintro ⟨p, hp, _⟩ _; exact absurd hp (List.not_mem_nil p)
  | cons hd rest ih =>
    rintro ⟨p, hp, hnone, hne⟩ hcost
    obtain ⟨model, metrics⟩ := hd
    unfold collectCandidates
    dsimp only
    by_cases hb : model = bn
    · rw [if_pos hb]
      apply ih
      · refine ⟨p, ?_, hnone, hne⟩
        rcases List.mem_cons.1 hp with h1 | h1
        · exfalso
          apply hne
          rw [h1, hb]
        · exact h1
      · exact fun r hr => hcost r (List.mem_cons_of_mem _ hr)
    · rw [if_neg hb]
      cases hpd : pyDictGet model ms with
      | none =>
        have hlk : lookupKey model ms = .error (.keyError model) := by
          unfold lookupKey; rw [hpd]
        refine ⟨model, ?_⟩
        simp only [hlk]
      | some q =>
        have hlk : lookupKey model ms = .ok q := by
          unfold lookupKey; rw [hpd]
        simp only [hlk]
        have hprest : p ∈ rest := by
          rcases List.mem_cons.1 hp with h1 | h1
          · exfalso
            rw [h1] at hnone
            dsimp only at hnone
            rw [hpd] at hnone
            exact Option.noConfusion hnone
          · exact h1
        by_cases hcond : ma ≤ q ∧ metrics.avg_cost_per_call < bc
        · rw [if_pos hcond]
          have hbc : bc ≠ 0 := by
            have h0 : 0 ≤ metrics.avg_cost_per_call := hcost _ (List.mem_cons_self _ _)
            have h1 := hcond.2
            intro hbc0
            rw [hbc0] at h1
            linarith
          have hd1 : checkedDiv (bc - metrics.avg_cost_per_call) bc =
              .ok ((bc - metrics.avg_cost_per_call) / bc) := by
            unfold checkedDiv; rw [if_neg hbc]
          have hd2 : checkedDiv q bq = .ok (q / bq) := by
            unfold checkedDiv; rw [if_neg hbq]
          simp only [hd1, hd2]
          obtain ⟨k, hk⟩ := ih ⟨p, hprest, hnone, hne⟩
            (fun r hr => hcost r (List.mem_cons_of_mem _ hr))
          refine ⟨k, ?_⟩
          simp only [hk]
        · rw [if_neg hcond]
          exact ih ⟨p, hprest, hnone, hne⟩
            (fun r hr => hcost r (List.mem_cons_of_mem _ hr))

/-- C9 (amended).  When at least one model has a successful call and at least
one other model has none, and moreover the keys are distinct, every cost is
nonnegative and every succeeding model has a positive quality score (the
conditions the counterexample shows are needed), recommend raises an uncaught
KeyError: the candidate loop iterates the full metrics map but quality scores
exist only for succeeding models. -/
theorem C9_keyError (m : List (String × QualityMetrics)) (loss minsav : ℚ)
    (hnodup : (m.map Prod.fst).Nodup)
    (hsucc : ∃ p ∈ m, 0 < p.2.successful_calls)
    (hfail : ∃ p ∈ m, ¬ 0 < p.2.successful_calls)
    (hcost : ∀ p ∈ m, 0 ≤ p.2.avg_cost_per_call)
    (hq : ∀ p ∈ m, 0 < p.2.successful_calls → 0 < calculate_quality_score p.2) :
    ∃ k, recommend m loss minsav = .error (.keyError k) := by
  cases m with
  | nil =>
    obtain ⟨p, hp, _⟩ := hsucc
    exact absurd hp (List.not_mem_nil p)
  | cons x xs =>
    obtain ⟨ps, hps, hps2⟩ := hsucc
    obtain ⟨pf, hpf, hpf2⟩ := hfail
    have hne0 : List.filter (fun p => decide (0 < p.2.successful_calls)) (x :: xs) ≠ [] :=
      List.ne_nil_of_mem (List.mem_filter.2 ⟨hps, by simpa using hps2⟩)
    obtain ⟨v, vs, hval⟩ := List.exists_cons_of_ne_nil hne0
    have hpfkey0 : pf.1 ∉ (List.filter (fun p => decide (0 < p.2.successful_calls))
        (x :: xs)).map Prod.fst := by
      intro hmem
      obtain ⟨q, hqf, hq1⟩ := List.mem_map.1 hmem
      have hql := List.mem_filter.1 hqf
      have hqe : q = pf := eq_of_mem_nodup_keys _ hnodup q pf hql.1 hpf hq1
      rw [hqe] at hql
      exact hpf2 (by simpa using hql.2)
    unfold recommend
    dsimp only
    simp only [hval]
    set ms := (v :: vs).map (fun p => (p.1, calculate_quality_score p.2)) with hms
    set bn := argmaxKey ms with hbn
    have hkeys : ms.map Prod.fst = (v :: vs).map Prod.fst := by
      rw [hms]; simp
    have hbnmem : bn ∈ ms.map Prod.fst := argmaxKey_mem ms (by rw [hms]; simp)
    obtain ⟨bm, hbm⟩ := lookupKey_ok_of_mem (v :: vs) bn (by rw [← hkeys]; exact hbnmem)
    simp only [hbm]
    obtain ⟨bq, hbq⟩ := lookupKey_ok_of_mem ms bn hbnmem
    simp only [hbq]
    have hbqpos : 0 < bq := by
      have hpd := lookupKey_ok_shape _ _ _ hbq
      have hmem := mem_of_lookup ms bn bq hpd
      rw [hms] at hmem
      obtain ⟨p, hpmem, hpe⟩ := List.mem_map.1 hmem
      have hpm : p ∈ List.filter (fun p => decide (0 < p.2.successful_calls)) (x :: xs) := by
        rw [hval]; exact hpmem
      have hfil := List.mem_filter.1 hpm
      have hbqe : calculate_quality_score p.2 = bq := by
        injection hpe with h1 h2
      rw [← hbqe]
      exact hq p hfil.1 (by simpa using hfil.2)
    have hpfkey : pyDictGet pf.1 ms = none := by
      rw [lookup_eq_none_iff, hkeys, ← hval]
      exact hpfkey0
    have hpfne : pf.1 ≠ bn := by
      intro hcontra
      rw [← hcontra] at hbnmem
      rw [lookup_eq_none_iff] at hpfkey
      exact hpfkey hbnmem
    obtain ⟨k, hcol⟩ := collect_keyError bn ms (bq * (1 - loss))
      bm.avg_cost_per_call bq (ne_of_gt hbqpos) (x :: xs)
      ⟨pf, hpf, hpfkey, hpfne⟩ hcost
    refine ⟨k, ?_⟩
    simp only [hcol]

/-- Witness for the amended C9: two healthy models and one all-failed model
with distinct keys, nonnegative costs and positive qualities. -/
theorem C9_witness :
    ∃ k, recommend [("A", mA), ("B", mB), ("C", mC0)] 0.05 0.10 =
      .error (.keyError k) := by
  apply C9_keyError
  · simp
  · exact ⟨("A", mA), by simp, by norm_num [mA]⟩
  · exact ⟨("C", mC0), by simp, by norm_num [mC0]⟩
  · intro p hp
    simp only [List.mem_cons, List.not_mem_nil, or_false] at hp
    rcases hp with h | h | h <;> rw [h] <;> norm_num [mA, mB, mC0]
  · intro p hp
    simp only [List.mem_cons, List.not_mem_nil, or_false] at hp
    rcases hp with h | h | h <;> rw [h] <;>
      norm_num [mA, mB, mC0, calculate_quality_score]

/-- The transfer confidence of any family lies in [0, 1]. -/
theorem transfer_confidence_range (family : String) :
    0 ≤ get_transfer_confidence family ∧ get_transfer_confidence family ≤ 1 := by
  unfold get_transfer_confidence
  cases hp : pyDictGet family MODEL_FAMILIES with
  | none => norm_num
  | some c =>
    have hmem := mem_of_lookup _ _ _ hp
    simp only [PV.MODEL_FAMILIES, List.mem_cons, List.not_mem_nil, or_false] at hmem
    rcases hmem with h | h | h | h | h | h <;>
      (injection h with h1 h2; rw [h2]) <;> norm_num

/-- Every scenario policy has nonnegative ensemble weights. -/
theorem config_weights_nonneg (s : String) :
    0 ≤ (get_scenario_config s).llm_judge_weight ∧
    0 ≤ (get_scenario_config s).heuristic_weight ∧
    0 ≤ (get_scenario_config s).db_weight := by
  unfold get_scenario_config
  split_ifs <;> norm_num

/-- Shape of a level-1 hit: source exact_match, score a raw store score. -/
theorem exact_match_shape (db : DBFun) (p m s : String) (r : CacheResult)
    (h : SmartCacheStrategy._exact_match db p m s = some r) :
    r.source = "exact_match" ∧
    ∃ result avg, db p m s 1 = some result ∧ result.avg_score = some avg ∧
      r.score = avg := by
  unfold SmartCacheStrategy._exact_match at h
  cases hdb : db p m s 1 with
  | none => rw [hdb] at h; exact absurd h (by simp)
  | some result =>
    rw [hdb] at h
    cases havg : result.avg_score with
    | none => simp only [havg] at h; exact absurd h (by simp)
    | some avg =>
      simp only [havg] at h
      cases hsim : result.similarity with
      | none => simp only [hsim] at h; exact absurd h (by simp)
      | some sim =>
        simp only [hsim] at h
        split at h
        · injection h with h2
          exact ⟨by rw [← h2], result, avg, rfl, havg, by rw [← h2]⟩
        · exact absurd h (by simp)

/-- Shape of a level-2 hit: source scenario_similar, score a raw store score. -/
theorem scenario_similar_shape (db : DBFun) (p m s : String) (r : CacheResult)
    (h : SmartCacheStrategy._scenario_similar db p m s = some r) :
    r.source = "scenario_similar" ∧
    ∃ result avg, db p m s 5 = some result ∧ result.avg_score = some avg ∧
      r.score = avg := by
  unfold SmartCacheStrategy._scenario_similar at h
  cases hdb : db p m s 5 with
  | none => rw [hdb] at h; exact absurd h (by simp)
  | some result =>
    rw [hdb] at h
    cases havg : result.avg_score with
    | none => simp only [havg] at h; exact absurd h (by simp)
    | some avg =>
      simp only [havg] at h
      split at h
      · injection h with h2
        exact ⟨by rw [← h2], result, avg, rfl, havg, by rw [← h2]⟩
      · exact absurd h (by simp)

/-- Shape of a family-loop hit: source model_family, score a discounted
store score. -/
theorem familyLoop_shape (db : DBFun) (p s m : String) (mult : ℚ) :
    ∀ (members : List String) (r : CacheResult),
      SmartCacheStrategy.familyLoop db p s m mult members = some r →
      r.source = "model_family" ∧
      ∃ fm result avg, db p fm s 3 = some result ∧ result.avg_score = some avg ∧
        r.score = avg * mult := by
  intro members
  induction members with
  | nil => intro r h; exact absurd h (by simp [SmartCacheStrategy.familyLoop])
  | cons fm rest ih =>
    intro r h
    unfold SmartCacheStrategy.familyLoop at h
    split at h
    · exact ih r h
    · cases hdb : db p fm s 3 with
      | none => rw [hdb] at h; exact ih r h
      | some result =>
        rw [hdb] at h
        cases havg : result.avg_score with
        | none => simp only [havg] at h; exact ih r h
        | some avg =>
          simp only [havg] at h
          split at h
          · injection h with h2
            exact ⟨by rw [← h2], fm, result, avg, hdb, havg, by rw [← h2]⟩
          · exact ih r h

/-- Shape of a level-3 hit, with the discount being a transfer confidence. -/
theorem model_family_shape (db : DBFun) (p m s : String) (r : CacheResult)
    (h : SmartCacheStrategy._model_family_match db p m s = some r) :
    r.source = "model_family" ∧
    ∃ fm result avg mult, db p fm s 3 = some result ∧
      result.avg_score = some avg ∧ 0 ≤ mult ∧ mult ≤ 1 ∧ r.score = avg * mult := by
  unfold SmartCacheStrategy._model_family_match at h
  dsimp only at h
  by_cases hf : get_model_family m = "unknown"
  · rw [if_pos hf] at h
    exact absurd h (by simp)
  · rw [if_neg hf] at h
    obtain ⟨hsrc, fm, result, avg, hdb, havg, hscore⟩ := familyLoop_shape _ _ _ _ _ _ _ h
    obtain ⟨hm0, hm1⟩ := transfer_confidence_range (get_model_family m)
    exact ⟨hsrc, fm, result, avg, _, hdb, havg, hm0, hm1, hscore⟩

/-- Any accepted lookup result comes from one of the three implemented
levels (the scenario-baseline level returns nothing). -/
theorem lookup_level_shape (db : DBFun) (p m s mc : String) (r : CacheResult)
    (h : SmartCacheStrategy.lookup db p m s mc = some r) :
    SmartCacheStrategy._exact_match db p m s = some r ∨
    SmartCacheStrategy._scenario_similar db p m s = some r ∨
    SmartCacheStrategy._model_family_match db p m s = some r := by
  have hl2 : ∀ r2 : CacheResult, SmartCacheStrategy.lookupL2 db p m s mc = some r2 →
      SmartCacheStrategy._scenario_similar db p m s = some r2 ∨
      SmartCacheStrategy._model_family_match db p m s = some r2 := by
    intro r2 h2
    unfold SmartCacheStrategy.lookupL2 at h2
    split at h2
    · rename_i result heq
      split at h2
      · injection h2 with h3; exact Or.inl (by rw [← h3]; exact heq)
      · split at h2
        · rename_i r3 heq3
          split at h2
          · injection h2 with h3; exact Or.inr (by rw [← h3]; exact heq3)
          · split at h2 <;> simp [SmartCacheStrategy._scenario_baseline] at h2
        · split at h2 <;> simp [SmartCacheStrategy._scenario_baseline] at h2
    · split at h2
      · rename_i r3 heq3
        split at h2
        · injection h2 with h3; exact Or.inr (by rw [← h3]; exact heq3)
        · split at h2 <;> simp [SmartCacheStrategy._scenario_baseline] at h2
      · split at h2 <;> simp [SmartCacheStrategy._scenario_baseline] at h2
  unfold SmartCacheStrategy.lookup at h
  split at h
  · rename_i result heq
    split at h
    · injection h with h2; exact Or.inl (by rw [← h2]; exact heq)
    · rcases hl2 r h with h3 | h3
      · exact Or.inr (Or.inl h3)
      · exact Or.inr (Or.inr h3)
  · rcases hl2 r h with h3 | h3
    · exact Or.inr (Or.inl h3)
    · exact Or.inr (Or.inr h3)

/-- The source of an accepted lookup result is never the judge tag. -/
theorem lookup_source_ne (db : DBFun) (p m s mc : String) (r : CacheResult)
    (h : SmartCacheStrategy.lookup db p m s mc = some r) :
    r.source ≠ "llm_judge" := by
  rcases lookup_level_shape db p m s mc r h with h1 | h1 | h1
  · rw [(exact_match_shape _ _ _ _ _ h1).1]; simp
  · rw [(scenario_similar_shape _ _ _ _ _ h1).1]; simp
  · rw [(model_family_shape _ _ _ _ _ h1).1]; simp

/-- When every store score is in [0, 100], so is the score of any accepted
lookup result (raw at levels 1-2, discounted by a transfer confidence in
[0, 1] at level 3). -/
theorem lookup_score_range (db : DBFun) (p m s mc : String) (r : CacheResult)
    (hdb : ∀ pp mm ss ll rr, db pp mm ss ll = some rr →
      ∀ q, rr.avg_score = some q → 0 ≤ q ∧ q ≤ 100)
    (h : SmartCacheStrategy.lookup db p m s mc = some r) :
    0 ≤ r.score ∧ r.score ≤ 100 := by
  rcases lookup_level_shape db p m s mc r h with h1 | h1 | h1
  · obtain ⟨-, result, avg, hdbq, havg, hscore⟩ := exact_match_shape _ _ _ _ _ h1
    rw [hscore]
    exact hdb _ _ _ _ _ hdbq _ havg
  · obtain ⟨-, result, avg, hdbq, havg, hscore⟩ := scenario_similar_shape _ _ _ _ _ h1
    rw [hscore]
    exact hdb _ _ _ _ _ hdbq _ havg
  · obtain ⟨-, fm, result, avg, mult, hdbq, havg, hm0, hm1, hscore⟩ :=
      model_family_shape _ _ _ _ _ h1
    obtain ⟨ha0, ha1⟩ := hdb _ _ _ _ _ hdbq _ havg
    rw [hscore]
    constructor
    · exact mul_nonneg ha0 hm0
    · calc avg * mult ≤ avg * 1 := by
            exact mul_le_mul_of_nonneg_left hm1 ha0
        _ = avg := mul_one avg
        _ ≤ 100 := ha1

/-- The heuristic validator clamps its score into [0, 100] on every input:
the early returns produce 0 and the main path ends with max 0 (min 100 s). -/
theorem heuristic_score_range (output : String) (sv : Option Bool) (ml : ℕ)
    (lang : String) :
    0 ≤ (HeuristicValidator.validate output sv ml lang).score ∧
    (HeuristicValidator.validate output sv ml lang).score ≤ 100 := by
  unfold HeuristicValidator.validate
  by_cases h1 : output = "" ∨ (pyStrip output).length = 0
  · rw [if_pos h1]
    exact ⟨le_refl 0, by norm_num⟩
  · rw [if_neg h1]
    by_cases h2 : HeuristicValidator._is_refusal output = true
    · rw [if_pos h2]
      exact ⟨le_refl 0, by norm_num⟩
    · rw [if_neg h2]
      dsimp only
      exact ⟨le_max_left _ _, max_le (by norm_num) (min_le_left _ _)⟩

/-- Distributing the constant 100 over a weight sum. -/
theorem sum_map_hundred (xs : List (ℚ × ℚ)) :
    (xs.map (fun p => 100 * p.2)).sum = 100 * (xs.map Prod.snd).sum := by
  induction xs with
  | nil => simp
  | cons q qs ih => simp only [List.map_cons, List.sum_cons, ih]; ring

/-- A weighted average over score-weight pairs with scores in [0, 100] and
nonnegative weights stays in [0, 100]; a zero weight total falls back to the
plain mean, which also stays in range. -/
theorem wavg_bounds (xs : List (ℚ × ℚ))
    (hx : ∀ p ∈ xs, 0 ≤ p.1 ∧ p.1 ≤ 100 ∧ 0 ≤ p.2) (hne : xs ≠ []) :
    0 ≤ (if (xs.map Prod.snd).sum = 0
         then (xs.map Prod.fst).sum / (xs.length : ℚ)
         else (xs.map (fun p => p.1 * p.2)).sum / (xs.map Prod.snd).sum) ∧
    (if (xs.map Prod.snd).sum = 0
     then (xs.map Prod.fst).sum / (xs.length : ℚ)
     else (xs.map (fun p => p.1 * p.2)).sum / (xs.map Prod.snd).sum) ≤ 100 := by
  by_cases h0 : (xs.map Prod.snd).sum = 0
  · rw [if_pos h0]
    have hlen : 0 < (xs.length : ℚ) := by
      have hl : 0 < xs.length := List.length_pos.2 hne
      exact_mod_cast hl
    constructor
    · apply div_nonneg ?_ (le_of_lt hlen)
      apply List.sum_nonneg
      intro y hy
      obtain ⟨p, hp, rfl⟩ := List.mem_map.1 hy
      exact (hx p hp).1
    · rw [div_le_iff₀ hlen]
      have hsum : (xs.map Prod.fst).sum ≤ (xs.map Prod.fst).length • (100 : ℚ) :=
        List.sum_le_card_nsmul _ _ (by
          intro y hy
          obtain ⟨p, hp, rfl⟩ := List.mem_map.1 hy
          exact (hx p hp).2.1)
      rw [List.length_map] at hsum
      calc (xs.map Prod.fst).sum ≤ xs.length • (100 : ℚ) := hsum
        _ = (xs.length : ℚ) * 100 := by rw [nsmul_eq_mul]
        _ = 100 * (xs.length : ℚ) := mul_comm _ _
  · rw [if_neg h0]
    have hwnn : 0 ≤ (xs.map Prod.snd).sum := by
      apply List.sum_nonneg
      intro y hy
      obtain ⟨p, hp, rfl⟩ := List.mem_map.1 hy
      exact (hx p hp).2.2
    have hpos : 0 < (xs.map Prod.snd).sum := lt_of_le_of_ne hwnn (Ne.symm h0)
    constructor
    · apply div_nonneg ?_ hwnn
      apply List.sum_nonneg
      intro y hy
      obtain ⟨p, hp, rfl⟩ := List.mem_map.1 hy
      exact mul_nonneg (hx p hp).1 (hx p hp).2.2
    · rw [div_le_iff₀ hpos]
      have hle : (xs.map (fun p => p.1 * p.2)).sum ≤ (xs.map (fun p => 100 * p.2)).sum :=
        List.sum_le_sum (by
          intro p hp
          exact mul_le_mul_of_nonneg_right (hx p hp).2.1 (hx p hp).2.2)
      have heq := sum_map_hundred xs
      calc (xs.map (fun p => p.1 * p.2)).sum ≤ (xs.map (fun p => 100 * p.2)).sum := hle
        _ = 100 * (xs.map Prod.snd).sum := heq

/-- _combine_scores stays in [0, 100] when each present signal does and the
policy weights are nonnegative; absent signals yield the neutral 50. -/
theorem combine_scores_range (j hs d : Option ℚ) (cfg : Option ScenarioConfig)
    (hj : ∀ x, j = some x → 0 ≤ x ∧ x ≤ 100)
    (hh : ∀ x, hs = some x → 0 ≤ x ∧ x ≤ 100)
    (hd : ∀ x, d = some x → 0 ≤ x ∧ x ≤ 100)
    (hw : 0 ≤ (cfg.getD (get_scenario_config "general")).llm_judge_weight ∧
          0 ≤ (cfg.getD (get_scenario_config "general")).heuristic_weight ∧
          0 ≤ (cfg.getD (get_scenario_config "general")).db_weight) :
    0 ≤ HybridValidator._combine_scores j hs d cfg ∧
    HybridValidator._combine_scores j hs d cfg ≤ 100 := by
  obtain ⟨hw1, hw2, hw3⟩ := hw
  unfold HybridValidator._combine_scores
  rcases j with _ | a <;> rcases hs with _ | b <;> rcases d with _ | c <;> dsimp only
  · norm_num
  · rw [if_neg (by simp)]
    apply wavg_bounds
    · intro p hp
      simp only [List.cons_append, List.nil_append, List.mem_cons,
        List.not_mem_nil, or_false] at hp
      rcases hp with rfl
      exact ⟨(hd _ rfl).1, (hd _ rfl).2, hw3⟩
    · simp
  · rw [if_neg (by simp)]
    apply wavg_bounds
    · intro p hp
      simp only [List.cons_append, List.nil_append, List.mem_cons,
        List.not_mem_nil, or_false] at hp
      rcases hp with rfl
      exact ⟨(hh _ rfl).1, (hh _ rfl).2, hw2⟩
    · simp
  · rw [if_neg (by simp)]
    apply wavg_bounds
    · intro p hp
      simp only [List.cons_append, List.nil_append, List.mem_cons,
        List.not_mem_nil, or_false] at hp
      rcases hp with rfl | rfl
      · exact ⟨(hh _ rfl).1, (hh _ rfl).2, hw2⟩
      · exact ⟨(hd _ rfl).1, (hd _ rfl).2, hw3⟩
    · simp
  · rw [if_neg (by simp)]
    apply wavg_bounds
    · intro p hp
      simp only [List.cons_append, List.nil_append, List.mem_cons,
        List.not_mem_nil, or_false] at hp
      rcases hp with rfl
      exact ⟨(hj _ rfl).1, (hj _ rfl).2, hw1⟩
    · simp
  · rw [if_neg (by simp)]
    apply wavg_bounds
    · intro p hp
      simp only [List.cons_append, List.nil_append, List.mem_cons,
        List.not_mem_nil, or_false] at hp
      rcases hp with rfl | rfl
      · exact ⟨(hj _ rfl).1, (hj _ rfl).2, hw1⟩
      · exact ⟨(hd _ rfl).1, (hd _ rfl).2, hw3⟩
    · simp
  · rw [if_neg (by simp)]
    apply wavg_bounds
    · intro p hp
      simp only [List.cons_append, List.nil_append, List.mem_cons,
        List.not_mem_nil, or_false] at hp
      rcases hp with rfl | rfl
      · exact ⟨(hj _ rfl).1, (hj _ rfl).2, hw1⟩
      · exact ⟨(hh _ rfl).1, (hh _ rfl).2, hw2⟩
    · simp
  · rw [if_neg (by simp)]
    apply wavg_bounds
    · intro p hp
      simp only [List.cons_append, List.nil_append, List.mem_cons,
        List.not_mem_nil, or_false] at hp
      rcases hp with rfl | rfl | rfl
      · exact ⟨(hj _ rfl).1, (hj _ rfl).2, hw1⟩
      · exact ⟨(hh _ rfl).1, (hh _ rfl).2, hw2⟩
      · exact ⟨(hd _ rfl).1, (hd _ rfl).2, hw3⟩
    · simp

/-- A judge result can only be produced from a successful judge outcome. -/
theorem run_llm_judge_some (st : HybridValidator.VState) (env : HybridValidator.CallEnv)
    (j : JudgeScore) (st' : HybridValidator.VState)
    (h : HybridValidator._run_llm_judge st env = (some j, st')) :
    env.judgeOutcome = .ok (some j) := by
  unfold HybridValidator._run_llm_judge at h
  dsimp only at h
  split at h
  · exact absurd h (by simp)
  · cases hj : env.judgeOutcome with
    | error u => rw [hj] at h; exact absurd h (by simp)
    | ok r =>
      rw [hj] at h
      injection h with h1 h2
      rw [h1]

/-- Once the cap is crossed, _run_llm_judge declines and leaves the state
untouched. -/
theorem run_llm_judge_cap (st : HybridValidator.VState) (env : HybridValidator.CallEnv)
    (h : HybridValidator.capExceeded st) :
    HybridValidator._run_llm_judge st env = (none, st) := by
  unfold HybridValidator.capExceeded at h
  unfold HybridValidator._run_llm_judge
  dsimp only
  rw [if_pos h]

/-- Steps 3-6 keep the combined score in [0, 100] whenever the cache score
and the judge scores are. -/
theorem validateRest_score_range (st : HybridValidator.VState)
    (env : HybridValidator.CallEnv) (output scenario : String)
    (cfg : ScenarioConfig) (cacheOpt : Option CacheResult) (force : Bool)
    (hcache : ∀ cr, cacheOpt = some cr → 0 ≤ cr.score ∧ cr.score ≤ 100)
    (hjudge : ∀ jr, env.judgeOutcome = .ok (some jr) → 0 ≤ jr.score ∧ jr.score ≤ 100)
    (hcfg : 0 ≤ cfg.llm_judge_weight ∧ 0 ≤ cfg.heuristic_weight ∧ 0 ≤ cfg.db_weight) :
    0 ≤ (HybridValidator.validateRest st env output scenario cfg cacheOpt force).1.score ∧
    (HybridValidator.validateRest st env output scenario cfg cacheOpt force).1.score ≤ 100 := by
  have hheu := heuristic_score_range output none 10 "en"
  have hdbs : ∀ x, cacheOpt.map (fun cr => cr.score) = some x → 0 ≤ x ∧ x ≤ 100 := by
    intro x hx
    obtain ⟨cr, hcr, hfx⟩ := Option.map_eq_some'.1 hx
    rw [← hfx]
    exact hcache cr hcr
  have hgw := config_weights_nonneg "general"
  unfold HybridValidator.validateRest
  dsimp only
  by_cases h1 : (HeuristicValidator.validate output none 10 "en").confidence = "HIGH" ∧
      (HeuristicValidator.validate output none 10 "en").score < 30
  · rw [if_pos h1]
    apply combine_scores_range
    · intro x hx; exact absurd hx (by simp)
    · intro x hx; injection hx with h2; rw [← h2]; exact hheu
    · exact hdbs
    · exact hcfg
  · rw [if_neg h1]
    by_cases hb : ((force || should_use_llm_judge scenario
        (cacheOpt.map (fun cr => cr.confidence)) env.judgeRand) && st.use_llm_judge) = true
    · rw [if_pos hb]
      rcases hrj : HybridValidator._run_llm_judge st env with ⟨jopt, st1⟩
      cases jopt with
      | some j =>
        simp only [hrj]
        apply combine_scores_range
        · intro x hx
          injection hx with h2
          rw [← h2]
          exact hjudge j (run_llm_judge_some st env j st1 hrj)
        · intro x hx; injection hx with h2; rw [← h2]; exact hheu
        · exact hdbs
        · exact hcfg
      | none =>
        simp only [hrj]
        apply combine_scores_range
        · intro x hx; exact absurd hx (by simp)
        · intro x hx; injection hx with h2; rw [← h2]; exact hheu
        · exact hdbs
        · exact hgw
    · rw [if_neg hb]
      apply combine_scores_range
      · intro x hx; exact absurd hx (by simp)
      · intro x hx; injection hx with h2; rw [← h2]; exact hheu
      · exact hdbs
      · exact hgw

/-- C7. The heuristic validator clamps every score into [0, 100] for every
output, schema outcome, minimum length and expected language; and, given
the data-model invariants of the external rows (store scores and judge
scores lie in [0, 100], which their pydantic field bounds enforce), every
ValidationScore the hybrid validator returns has its score in [0, 100]. -/
theorem C7_score_range :
    (∀ (output : String) (sv : Option Bool) (ml : ℕ) (lang : String),
      0 ≤ (HeuristicValidator.validate output sv ml lang).score ∧
      (HeuristicValidator.validate output sv ml lang).score ≤ 100) ∧
    (∀ (st : HybridValidator.VState) (env : HybridValidator.CallEnv)
        (prompt : HistoricalPrompt) (output model phase : String) (force : Bool),
      (∀ pp mm ss ll rr, env.db pp mm ss ll = some rr →
        ∀ q, rr.avg_score = some q → 0 ≤ q ∧ q ≤ 100) →
      (∀ jr, env.judgeOutcome = .ok (some jr) → 0 ≤ jr.score ∧ jr.score ≤ 100) →
      0 ≤ (HybridValidator.validate st env prompt output model phase force).1.score ∧
      (HybridValidator.validate st env prompt output model phase force).1.score ≤ 100) := by
  constructor
  · exact fun o sv ml lang => heuristic_score_range o sv ml lang
  · intro st env prompt output model phase force hdb hjudge
    unfold HybridValidator.validate
    dsimp only
    cases hc : SmartCacheStrategy.lookup env.db (HybridValidator._format_prompt prompt)
        model (env.classify (HybridValidator._format_prompt prompt)) "MEDIUM" with
    | some cr =>
      dsimp only
      by_cases hh : cr.confidence = "HIGH"
      · rw [if_pos hh]
        exact lookup_score_range _ _ _ _ _ _ hdb hc
      · rw [if_neg hh]
        apply validateRest_score_range
        · intro cr2 h2
          injection h2 with h3
          rw [← h3]
          exact lookup_score_range _ _ _ _ _ _ hdb hc
        · exact hjudge
        · exact config_weights_nonneg _
    | none =>
      apply validateRest_score_range
      · intro cr2 h2; exact absurd h2 (by simp)
      · exact hjudge
      · exact config_weights_nonneg _

/-- Witness for C7: a concrete validate call in the witness environment. -/
theorem C7_witness :
    0 ≤ (HybridValidator.validate stSpent envWitness ⟨[[("content", "hello")]]⟩
      "ok" "gpt-4o" "discovery" false).1.score ∧
    (HybridValidator.validate stSpent envWitness ⟨[[("content", "hello")]]⟩
      "ok" "gpt-4o" "discovery" false).1.score ≤ 100 :=
  C7_score_range.2 stSpent envWitness ⟨[[("content", "hello")]]⟩ "ok" "gpt-4o"
    "discovery" false
    (by intro pp mm ss ll rr hr; exact absurd hr (by simp [envWitness]))
    (by intro jr hr; rw [show envWitness.judgeOutcome = .ok none from rfl] at hr;
        exact absurd hr (by simp))

/-- Steps 3-6 under an exceeded cap: the judge is declined inside
_run_llm_judge, so the result never carries the llm_judge tag and the state
is unchanged. -/
theorem validateRest_cap_no_judge (st : HybridValidator.VState)
    (env : HybridValidator.CallEnv) (output scenario : String)
    (cfg : ScenarioConfig) (cacheOpt : Option CacheResult) (force : Bool)
    (h : HybridValidator.capExceeded st)
    (hmu : "llm_judge" ∉
      ((match cacheOpt with | some cr => [cr.source] | none => []) ++
        ["heuristics"] : List String)) :
    "llm_judge" ∉ (HybridValidator.validateRest st env output scenario cfg
      cacheOpt force).1.methods_used ∧
    (HybridValidator.validateRest st env output scenario cfg cacheOpt force).2 = st := by
  unfold HybridValidator.validateRest
  dsimp only
  by_cases h1 : (HeuristicValidator.validate output none 10 "en").confidence = "HIGH" ∧
      (HeuristicValidator.validate output none 10 "en").score < 30
  · rw [if_pos h1]
    exact ⟨hmu, rfl⟩
  · rw [if_neg h1]
    by_cases hb : ((force || should_use_llm_judge scenario
        (cacheOpt.map (fun cr => cr.confidence)) env.judgeRand) && st.use_llm_judge) = true
    · rw [if_pos hb]
      rw [run_llm_judge_cap st env h]
      exact ⟨hmu, rfl⟩
    · rw [if_neg hb]
      exact ⟨hmu, rfl⟩

/-- A single validate call under an exceeded cap never tags the judge and
leaves the budget state unchanged. -/
theorem validate_cap_no_judge (st : HybridValidator.VState)
    (env : HybridValidator.CallEnv) (prompt : HistoricalPrompt)
    (output model phase : String) (force : Bool)
    (h : HybridValidator.capExceeded st) :
    "llm_judge" ∉ (HybridValidator.validate st env prompt output model phase force).1.methods_used ∧
    (HybridValidator.validate st env prompt output model phase force).2 = st := by
  unfold HybridValidator.validate
  dsimp only
  cases hc : SmartCacheStrategy.lookup env.db (HybridValidator._format_prompt prompt)
      model (env.classify (HybridValidator._format_prompt prompt)) "MEDIUM" with
  | some cr =>
    dsimp only
    have hsrc : cr.source ≠ "llm_judge" := lookup_source_ne _ _ _ _ _ _ hc
    by_cases hh : cr.confidence = "HIGH"
    · rw [if_pos hh]
      refine ⟨?_, rfl⟩
      simp only [List.mem_cons, List.not_mem_nil, or_false]
      intro h1
      exact hsrc h1.symm
    · rw [if_neg hh]
      apply validateRest_cap_no_judge _ _ _ _ _ _ _ h
      simp only [List.cons_append, List.nil_append, List.mem_cons,
        List.not_mem_nil, or_false]
      intro hmem
      rcases hmem with h1 | h1
      · exact hsrc h1.symm
      · simp at h1
  | none =>
    apply validateRest_cap_no_judge _ _ _ _ _ _ _ h
    simp


/-- C1. Once the cumulative estimated judge spend has crossed the budget cap,
every subsequent validate call in the sequence returns a ValidationScore
without the llm_judge tag in methods_used, forced or not: a forced call still
re-checks the cap inside _run_llm_judge, is declined there while the cap
remains exceeded, and the state (hence the cap) is preserved across calls. -/
theorem C1_budget_cap (st : HybridValidator.VState) (calls : List HybridValidator.Call)
    (h : HybridValidator.capExceeded st) :
    ∀ v ∈ (HybridValidator.runValidate st calls).1, "llm_judge" ∉ v.methods_used := by
  induction calls generalizing st with
  | nil => intro v hv; exact absurd hv (by simp [HybridValidator.runValidate])
  | cons c rest ih =>
    intro v hv
    unfold HybridValidator.runValidate at hv
    dsimp only at hv
    obtain ⟨hno, hst⟩ := validate_cap_no_judge st c.env c.prompt c.output c.model
      c.phase c.force_llm_judge h
    rcases List.mem_cons.1 hv with h1 | h1
    · rw [h1]; exact hno
    · exact ih _ (by rw [hst]; exact h) v h1

/-- Witness for C1: a fully spent budget and one forced call. -/
theorem C1_witness :
    HybridValidator.capExceeded stSpent ∧
    ∀ v ∈ (HybridValidator.runValidate stSpent [callWitness]).1,
      "llm_judge" ∉ v.methods_used :=
  ⟨by norm_num [stSpent, HybridValidator.capExceeded],
   C1_budget_cap stSpent [callWitness]
     (by norm_num [stSpent, HybridValidator.capExceeded])⟩

end PV
